import Mathlib

/-!
Verification development for the jRust transpiler core
(crates/transpiler_core: lexer.rs, token.rs, ast.rs, parser.rs, codegen.rs).

Shallow embedding conventions:
* Rust `char` is Lean `Char`; the Unicode classification functions
  (`is_alphabetic`, `is_alphanumeric`, `is_uppercase`, …) are modelled by
  Lean's ASCII classifiers (`Char.isAlpha`, `Char.isAlphanum`, `Char.isUpper`),
  i.e. the embedding restricts the source's Unicode case tables to ASCII.
* Rust `i32` literals are `Int` with the `i32` overflow bound checked
  explicitly where the source checks it (`read_number`).
* `Result<T, String>` is `Except … T`.  The lexer's top-level loop is given
  an explicit fuel argument (`tokenizeLoop`); `tokenize` supplies
  `input.length + 1` fuel and a theorem shows the sentinel
  `LexFail.outOfFuel` is unreachable, so the fuel is an implementation
  device only.
* Error message strings follow the source but elide the decorative
  single-quote characters around interpolated fragments.
-/

set_option maxHeartbeats 1600000 in
/-- Token kinds, from token.rs.  The variants after `eof`
(`kImport` … `boolLit`) do not appear in the checked-in token.rs, which is
stale: parser.rs pattern-matches on them (`TokenKind::Import`,
`TokenKind::BooleanLiteral(b)`, …) and the spec lists them, so they are
modelled from the spec and the parser's usage. -/
inductive TokenKind where
  | kLet | kFunction | kReturn | kVoid | kConst | kPrint
  | kIf | kElse | kFor | kWhile | kIn | kAny | kBreak | kContinue
  | numberType | stringType | booleanType
  | ident (s : String)
  | numberLit (n : Int)
  | stringLit (s : String)
  | plus | minus | star | slash | percent | equal | colon | semicolon | comma | dot
  | leftParen | rightParen | leftBrace | rightBrace | leftBracket | rightBracket
  | equalEqual | bangEqual | greater | greaterEqual | less | lessEqual
  | ampAmp | pipePipe | bang
  | ampersand | kMut
  | eof
  | kImport | kExport | kStruct | kEnum | kTry | kCatch | kThrow | kAs | kFrom
  | boolLit (b : Bool)
deriving Repr

/-- Injective encoding of a token kind (constructor discriminant plus the
payloads), used for a hand-rolled decidable-equality instance. -/
def tkEnc : TokenKind → Nat × String × Int × Bool
  | .kLet => (0, "", 0, false)
  | .kFunction => (1, "", 0, false)
  | .kReturn => (2, "", 0, false)
  | .kVoid => (3, "", 0, false)
  | .kConst => (4, "", 0, false)
  | .kPrint => (5, "", 0, false)
  | .kIf => (6, "", 0, false)
  | .kElse => (7, "", 0, false)
  | .kFor => (8, "", 0, false)
  | .kWhile => (9, "", 0, false)
  | .kIn => (10, "", 0, false)
  | .kAny => (11, "", 0, false)
  | .kBreak => (12, "", 0, false)
  | .kContinue => (13, "", 0, false)
  | .numberType => (14, "", 0, false)
  | .stringType => (15, "", 0, false)
  | .booleanType => (16, "", 0, false)
  | .ident s => (17, s, 0, false)
  | .numberLit n => (18, "", n, false)
  | .stringLit s => (19, s, 0, false)
  | .plus => (20, "", 0, false)
  | .minus => (21, "", 0, false)
  | .star => (22, "", 0, false)
  | .slash => (23, "", 0, false)
  | .percent => (24, "", 0, false)
  | .equal => (25, "", 0, false)
  | .colon => (26, "", 0, false)
  | .semicolon => (27, "", 0, false)
  | .comma => (28, "", 0, false)
  | .dot => (29, "", 0, false)
  | .leftParen => (30, "", 0, false)
  | .rightParen => (31, "", 0, false)
  | .leftBrace => (32, "", 0, false)
  | .rightBrace => (33, "", 0, false)
  | .leftBracket => (34, "", 0, false)
  | .rightBracket => (35, "", 0, false)
  | .equalEqual => (36, "", 0, false)
  | .bangEqual => (37, "", 0, false)
  | .greater => (38, "", 0, false)
  | .greaterEqual => (39, "", 0, false)
  | .less => (40, "", 0, false)
  | .lessEqual => (41, "", 0, false)
  | .ampAmp => (42, "", 0, false)
  | .pipePipe => (43, "", 0, false)
  | .bang => (44, "", 0, false)
  | .ampersand => (45, "", 0, false)
  | .kMut => (46, "", 0, false)
  | .eof => (47, "", 0, false)
  | .kImport => (48, "", 0, false)
  | .kExport => (49, "", 0, false)
  | .kStruct => (50, "", 0, false)
  | .kEnum => (51, "", 0, false)
  | .kTry => (52, "", 0, false)
  | .kCatch => (53, "", 0, false)
  | .kThrow => (54, "", 0, false)
  | .kAs => (55, "", 0, false)
  | .kFrom => (56, "", 0, false)
  | .boolLit b => (57, "", 0, b)

/-- Inverse of `tkEnc` on encodings. -/
def tkDec : Nat × String × Int × Bool → TokenKind
  | (0, _, _, _) => .kLet
  | (1, _, _, _) => .kFunction
  | (2, _, _, _) => .kReturn
  | (3, _, _, _) => .kVoid
  | (4, _, _, _) => .kConst
  | (5, _, _, _) => .kPrint
  | (6, _, _, _) => .kIf
  | (7, _, _, _) => .kElse
  | (8, _, _, _) => .kFor
  | (9, _, _, _) => .kWhile
  | (10, _, _, _) => .kIn
  | (11, _, _, _) => .kAny
  | (12, _, _, _) => .kBreak
  | (13, _, _, _) => .kContinue
  | (14, _, _, _) => .numberType
  | (15, _, _, _) => .stringType
  | (16, _, _, _) => .booleanType
  | (17, s, _, _) => .ident s
  | (18, _, n, _) => .numberLit n
  | (19, s, _, _) => .stringLit s
  | (20, _, _, _) => .plus
  | (21, _, _, _) => .minus
  | (22, _, _, _) => .star
  | (23, _, _, _) => .slash
  | (24, _, _, _) => .percent
  | (25, _, _, _) => .equal
  | (26, _, _, _) => .colon
  | (27, _, _, _) => .semicolon
  | (28, _, _, _) => .comma
  | (29, _, _, _) => .dot
  | (30, _, _, _) => .leftParen
  | (31, _, _, _) => .rightParen
  | (32, _, _, _) => .leftBrace
  | (33, _, _, _) => .rightBrace
  | (34, _, _, _) => .leftBracket
  | (35, _, _, _) => .rightBracket
  | (36, _, _, _) => .equalEqual
  | (37, _, _, _) => .bangEqual
  | (38, _, _, _) => .greater
  | (39, _, _, _) => .greaterEqual
  | (40, _, _, _) => .less
  | (41, _, _, _) => .lessEqual
  | (42, _, _, _) => .ampAmp
  | (43, _, _, _) => .pipePipe
  | (44, _, _, _) => .bang
  | (45, _, _, _) => .ampersand
  | (46, _, _, _) => .kMut
  | (47, _, _, _) => .eof
  | (48, _, _, _) => .kImport
  | (49, _, _, _) => .kExport
  | (50, _, _, _) => .kStruct
  | (51, _, _, _) => .kEnum
  | (52, _, _, _) => .kTry
  | (53, _, _, _) => .kCatch
  | (54, _, _, _) => .kThrow
  | (55, _, _, _) => .kAs
  | (56, _, _, _) => .kFrom
  | (57, _, _, b) => .boolLit b
  | _ => .eof

theorem tkDec_enc (k : TokenKind) : tkDec (tkEnc k) = k := by
  cases k <;> rfl

instance : DecidableEq TokenKind := fun a b =>
  if h : tkEnc a = tkEnc b then
    isTrue (by have h2 := congrArg tkDec h; rwa [tkDec_enc, tkDec_enc] at h2)
  else isFalse (fun e => h (e ▸ rfl))

/-- Token with position metadata, from token.rs (`Token { kind, line, column }`). -/
structure Token where
  kind : TokenKind
  line : Nat
  column : Nat
deriving DecidableEq, Repr

/-- Lexer failure: a real `LexError` message, or the artificial fuel
sentinel of the embedding (proved unreachable). -/
inductive LexFail where
  | lexErr (msg : String)
  | outOfFuel
deriving DecidableEq, Repr

/-- Embedding of `Lexer::skip_whitespace_and_comments`.  The `Bool` flag is
`true` while inside a `//` line comment (the source's inner `while` loop);
the comment loop leaves the terminating newline for the outer loop, which
then increments the line counter — here the two steps are fused: reaching
the newline inside a comment directly performs the newline bookkeeping.
Returns the remaining input together with the updated line and column. -/
def skipWsAux : Bool → List Char → Nat → Nat → (List Char × Nat × Nat)
  | _, [], ln, col => ([], ln, col)
  | true, '\n' :: rest, ln, _ => skipWsAux false rest (ln + 1) 1
  | true, _ :: rest, ln, col => skipWsAux true rest ln (col + 1)
  | false, ' ' :: rest, ln, col => skipWsAux false rest ln (col + 1)
  | false, '\t' :: rest, ln, col => skipWsAux false rest ln (col + 1)
  | false, '\r' :: rest, ln, col => skipWsAux false rest ln (col + 1)
  | false, '\n' :: rest, ln, _ => skipWsAux false rest (ln + 1) 1
  | false, '/' :: '/' :: rest, ln, col => skipWsAux true rest ln (col + 2)
  | false, l, ln, col => (l, ln, col)

mutual

/-- Embedding of `Lexer::read_string` (the loop after the opening quote was
consumed).  `ln`, `c0` are the starting line/column carried by the token and
by the unterminated-string error; `col` is the current column. -/
def readString : List Char → List Char → Nat → Nat → Nat →
    Except String (Token × List Char × Nat × Nat)
  | [], _, ln, c0, _ =>
      .error ("Unterminated string at line " ++ toString ln ++ ", column " ++ toString c0)
  | ch :: rest, acc, ln, c0, col =>
      if ch = '\\' then readEscape rest acc ln c0 col
      else if ch = '"' then .ok (⟨.stringLit ⟨acc⟩, ln, c0⟩, rest, ln, col + 1)
      else readString rest (acc ++ [ch]) ln c0 (col + 1)

/-- The escape-sequence step of `read_string` (after the backslash). -/
def readEscape : List Char → List Char → Nat → Nat → Nat →
    Except String (Token × List Char × Nat × Nat)
  | [], _, ln, c0, _ =>
      .error ("Unterminated string at line " ++ toString ln ++ ", column " ++ toString c0)
  | e :: rest2, acc, ln, c0, col =>
      let acc2 :=
        if e = 'n' then acc ++ ['\n']
        else if e = 't' then acc ++ ['\t']
        else if e = 'r' then acc ++ ['\r']
        else if e = '\\' then acc ++ ['\\']
        else if e = '"' then acc ++ ['"']
        else acc ++ ['\\', e]
      readString rest2 acc2 ln c0 (col + 2)

end

/-- Digit accumulation used by `read_number` (`num_str.parse::<i32>()` on a
maximal run of ASCII digits). -/
def digitsToNat (ds : List Char) : Nat :=
  ds.foldl (fun a d => a * 10 + (d.toNat - 48)) 0

/-- Embedding of `Lexer::read_number`: a maximal digit run parsed as `i32`;
overflow (value above `i32::MAX`; the run is unsigned) is a lex error. -/
def readNumber (l : List Char) (ln col : Nat) :
    Except String (Token × List Char × Nat × Nat) :=
  let ds := l.takeWhile (fun c => c.isDigit)
  let rest := l.dropWhile (fun c => c.isDigit)
  let n := digitsToNat ds
  if n ≤ 2147483647 then
    .ok (⟨.numberLit (Int.ofNat n), ln, col⟩, rest, ln, col + ds.length)
  else
    .error ("Invalid number " ++ String.mk ds ++ " at line " ++ toString ln ++
      ", column " ++ toString col)

/-- The keyword table of `Lexer::read_identifier` exactly as checked in:
only `let`, `function`, `return`, `void`, `const`, `print`, `number`,
`string`, `boolean`, `mut` are keywords; every other run lexes as an
identifier. -/
def keywordKind (s : String) : TokenKind :=
  if s = "let" then .kLet
  else if s = "function" then .kFunction
  else if s = "return" then .kReturn
  else if s = "void" then .kVoid
  else if s = "const" then .kConst
  else if s = "print" then .kPrint
  else if s = "number" then .numberType
  else if s = "string" then .stringType
  else if s = "boolean" then .booleanType
  else if s = "mut" then .kMut
  else .ident s

/-- Embedding of `Lexer::read_identifier`: maximal alphanumeric/underscore
run, matched against the keyword table. -/
def readIdent (l : List Char) (ln col : Nat) :
    Except String (Token × List Char × Nat × Nat) :=
  let cs := l.takeWhile (fun c => c.isAlphanum || c = '_')
  let rest := l.dropWhile (fun c => c.isAlphanum || c = '_')
  .ok (⟨keywordKind ⟨cs⟩, ln, col⟩, rest, ln, col + cs.length)

/-- The one-character lookahead merge for `&&`, `!=`, `==`, `>=`, `<=`: if
the next character completes the compound operator the longer token is
emitted, otherwise the shorter one. -/
def twoCharOp (one two : TokenKind) (second : Char) (rest : List Char) (ln col : Nat) :
    Except String (Token × List Char × Nat × Nat) :=
  match rest with
  | c2 :: rest2 =>
      if c2 = second then .ok (⟨two, ln, col⟩, rest2, ln, col + 2)
      else .ok (⟨one, ln, col⟩, c2 :: rest2, ln, col + 1)
  | [] => .ok (⟨one, ln, col⟩, [], ln, col + 1)

/-- The `|` arm: a lone `|` has no single-character meaning and is an error. -/
def pipeOp (rest : List Char) (ln col : Nat) :
    Except String (Token × List Char × Nat × Nat) :=
  match rest with
  | c2 :: rest2 =>
      if c2 = '|' then .ok (⟨.pipePipe, ln, col⟩, rest2, ln, col + 2)
      else
        .error ("Unexpected character | at line " ++ toString ln ++ ", column " ++ toString col)
  | [] =>
      .error ("Unexpected character | at line " ++ toString ln ++ ", column " ++ toString col)

/-- The current-character dispatch of `Lexer::next_token` (factored into a
plain definition so hypotheses about it unfold cheaply). -/
def nextTokenCore (ch : Char) (rest : List Char) (ln col : Nat) :
    Except String (Token × List Char × Nat × Nat) :=
  if ch = '+' then .ok (⟨.plus, ln, col⟩, rest, ln, col + 1)
  else if ch = '-' then .ok (⟨.minus, ln, col⟩, rest, ln, col + 1)
  else if ch = '*' then .ok (⟨.star, ln, col⟩, rest, ln, col + 1)
  else if ch = '/' then .ok (⟨.slash, ln, col⟩, rest, ln, col + 1)
  else if ch = '%' then .ok (⟨.percent, ln, col⟩, rest, ln, col + 1)
  else if ch = ':' then .ok (⟨.colon, ln, col⟩, rest, ln, col + 1)
  else if ch = ';' then .ok (⟨.semicolon, ln, col⟩, rest, ln, col + 1)
  else if ch = ',' then .ok (⟨.comma, ln, col⟩, rest, ln, col + 1)
  else if ch = '.' then .ok (⟨.dot, ln, col⟩, rest, ln, col + 1)
  else if ch = '(' then .ok (⟨.leftParen, ln, col⟩, rest, ln, col + 1)
  else if ch = ')' then .ok (⟨.rightParen, ln, col⟩, rest, ln, col + 1)
  else if ch = '\x7b' then .ok (⟨.leftBrace, ln, col⟩, rest, ln, col + 1)
  else if ch = '\x7d' then .ok (⟨.rightBrace, ln, col⟩, rest, ln, col + 1)
  else if ch = '&' then twoCharOp .ampersand .ampAmp '&' rest ln col
  else if ch = '|' then pipeOp rest ln col
  else if ch = '!' then twoCharOp .bang .bangEqual '=' rest ln col
  else if ch = '=' then twoCharOp .equal .equalEqual '=' rest ln col
  else if ch = '>' then twoCharOp .greater .greaterEqual '=' rest ln col
  else if ch = '<' then twoCharOp .less .lessEqual '=' rest ln col
  else if ch = '"' then readString rest [] ln col (col + 1)
  else if ch.isDigit then readNumber (ch :: rest) ln col
  else if ch.isAlpha || ch = '_' then readIdent (ch :: rest) ln col
  else
    .error ("Unexpected character " ++ String.singleton ch ++ " at line " ++
      toString ln ++ ", column " ++ toString col)

/-- Embedding of `Lexer::next_token`.  Matches the source arm by arm; note
the checked-in lexer has no `[`/`]` arms, so those characters fall through
to the unexpected-character error. -/
def nextToken : List Char → Nat → Nat →
    Except String (Token × List Char × Nat × Nat)
  | [], ln, col =>
      .error ("Unexpected character at line " ++ toString ln ++ ", column " ++ toString col)
  | ch :: rest, ln, col => nextTokenCore ch rest ln col

/-- Embedding of the loop body of `Lexer::tokenize`, with explicit fuel. -/
def tokenizeLoop : Nat → List Char → Nat → Nat → Except LexFail (List Token)
  | 0, _, _, _ => .error .outOfFuel
  | fuel + 1, l, ln, col =>
      match skipWsAux false l ln col with
      | (l1, ln1, col1) =>
        if l1.isEmpty then .ok [⟨.eof, ln1, col1⟩]
        else
          match nextToken l1 ln1 col1 with
          | .error e => .error (.lexErr e)
          | .ok (t, l2, ln2, col2) =>
              match tokenizeLoop fuel l2 ln2 col2 with
              | .error e => .error e
              | .ok ts => .ok (t :: ts)

/-- Embedding of `Lexer::tokenize` (line and column start at 1). -/
def tokenize (input : List Char) : Except LexFail (List Token) :=
  tokenizeLoop (input.length + 1) input 1 1

/-- Binary operators, from ast.rs `BinaryOp`. -/
inductive BinaryOp where
  | add | subtract | multiply | divide | modulo
  | equal | notEqual | greater | greaterEqual | less | lessEqual
  | andOp | orOp
deriving DecidableEq, Repr

/-- Types, from ast.rs `Type` (named `Ty` because `Type` is reserved in Lean). -/
inductive Ty where
  | number
  | string
  | boolean
  | void
  | any
  | array (elementType : Ty) (size : Option Nat)
  | custom (name : String)
  | inferred
deriving DecidableEq, Repr

/-- Expressions, from ast.rs `Expression`.  Struct fields of the auxiliary
record types (`VariableDecl`, `FunctionDecl`, …) are inlined into the
constructor arguments. -/
inductive Expression where
  | identifier (name : String)
  | numberLiteral (n : Int)
  | stringLiteral (s : String)
  | booleanLiteral (b : Bool)
  | arrayLiteral (elements : List Expression)
  | structLiteral (name : String) (fields : List (String × Expression))
  | binaryOp (left : Expression) (op : BinaryOp) (right : Expression)
  | functionCall (name : String) (args : List Expression)
  | methodCall (object : Expression) (method : String) (arguments : List Expression)
  | indexAccess (object : Expression) (index : Expression)
  | memberAccess (object : Expression) (member : String)

/-- Statements, from ast.rs `Statement` (record types inlined). -/
inductive Statement where
  | importStmt (imports : List (String × Option String)) (path : String) (isExternal : Bool)
  | exportStmt (inner : Statement)
  | variableDecl (name : String) (varType : Option Ty) (value : Expression) (isConst : Bool)
  | functionDecl (name : String) (params : List (String × Ty)) (returnType : Ty)
      (body : List Statement)
  | structDecl (name : String) (fields : List (String × Ty))
  | enumDecl (name : String) (variants : List (String × Option (List Ty)))
  | printStmt (expression : Expression)
  | returnStmt (value : Option Expression)
  | expressionStmt (e : Expression)
  | ifElse (condition : Expression) (thenBody : List Statement)
      (elseBody : Option (List Statement))
  | forLoop (varName : String) (iterable : Expression) (body : List Statement)
  | whileLoop (condition : Expression) (body : List Statement)
  | breakStmt
  | continueStmt
  | tryCatch (tryBody : List Statement) (catchParam : Option String)
      (catchBody : List Statement)
  | throwStmt (expression : Expression)

/-- Parse root, from ast.rs `Program`. -/
structure Program where
  statements : List Statement

/-- Parser failure: a real `ParseError` message, or an out-of-bounds token
access (the Rust code would panic on `self.tokens[i]`). -/
inductive PErr where
  | perr (msg : String)
  | oob
deriving DecidableEq, Repr

/-- Sequencing for parser steps threading the cursor, mirroring `?`
propagation in the source. -/
def pbind {α β : Type} (m : Except PErr (α × Nat))
    (f : α → Nat → Except PErr (β × Nat)) : Except PErr (β × Nat) :=
  match m with
  | .error e => .error e
  | .ok (a, c) => f a c

/-- Fuel sentinel for the parser embedding (proved irrelevant for the
claims that quantify over all fuels). -/
def fuelErr {α : Type} : Except PErr (α × Nat) :=
  .error (.perr "out of fuel")

/-- Discriminant of a token kind, mirroring `std::mem::discriminant`
equality used by `Parser::check`. -/
def kindTag : TokenKind → Nat
  | .kLet => 0 | .kFunction => 1 | .kReturn => 2 | .kVoid => 3 | .kConst => 4
  | .kPrint => 5 | .kIf => 6 | .kElse => 7 | .kFor => 8 | .kWhile => 9
  | .kIn => 10 | .kAny => 11 | .kBreak => 12 | .kContinue => 13
  | .numberType => 14 | .stringType => 15 | .booleanType => 16
  | .ident _ => 17 | .numberLit _ => 18 | .stringLit _ => 19
  | .plus => 20 | .minus => 21 | .star => 22 | .slash => 23 | .percent => 24
  | .equal => 25 | .colon => 26 | .semicolon => 27 | .comma => 28 | .dot => 29
  | .leftParen => 30 | .rightParen => 31 | .leftBrace => 32 | .rightBrace => 33
  | .leftBracket => 34 | .rightBracket => 35
  | .equalEqual => 36 | .bangEqual => 37 | .greater => 38 | .greaterEqual => 39
  | .less => 40 | .lessEqual => 41 | .ampAmp => 42 | .pipePipe => 43 | .bang => 44
  | .ampersand => 45 | .kMut => 46
  | .eof => 47
  | .kImport => 48 | .kExport => 49 | .kStruct => 50 | .kEnum => 51
  | .kTry => 52 | .kCatch => 53 | .kThrow => 54 | .kAs => 55 | .kFrom => 56
  | .boolLit _ => 57

/-- Embedding of `Parser::peek`: `self.tokens[self.current].clone()`; an
out-of-bounds index is the `oob` failure (a Rust panic). -/
def peekT (T : List Token) (c : Nat) : Except PErr (Token × Nat) :=
  if h : c < T.length then .ok (T.get ⟨c, h⟩, c) else .error .oob

/-- Embedding of `Parser::is_at_end`: `current >= len || peek.kind == Eof`
(the short-circuit makes the access safe). -/
def isAtEndT (T : List Token) (c : Nat) : Except PErr (Bool × Nat) :=
  if h : c < T.length then .ok (((T.get ⟨c, h⟩).kind == .eof : Bool), c)
  else .ok (true, c)

/-- Embedding of `Parser::advance`: increment unless at end, then read
`tokens[current - 1]`; the unguarded read is `oob` when it would panic. -/
def advanceT (T : List Token) (c : Nat) : Except PErr (Token × Nat) :=
  let atEnd := if h : c < T.length then ((T.get ⟨c, h⟩).kind == .eof : Bool) else true
  let c2 := if atEnd then c else c + 1
  if h : 1 ≤ c2 ∧ c2 - 1 < T.length then .ok (T.get ⟨c2 - 1, h.2⟩, c2)
  else .error .oob

/-- Embedding of `Parser::check`: false at end, else discriminant equality. -/
def checkT (T : List Token) (k : TokenKind) (c : Nat) : Except PErr (Bool × Nat) :=
  if h : c < T.length then
    if (T.get ⟨c, h⟩).kind == .eof then .ok (false, c)
    else .ok ((kindTag (T.get ⟨c, h⟩).kind == kindTag k : Bool), c)
  else .ok (false, c)

/-- Embedding of `Parser::match_token`. -/
def matchTokenT (T : List Token) (k : TokenKind) (c : Nat) : Except PErr (Bool × Nat) :=
  pbind (checkT T k c) fun b c1 =>
    if b then pbind (advanceT T c1) fun _ c2 => .ok (true, c2)
    else .ok (false, c1)

/-- Embedding of `Parser::consume`: on mismatch the error message re-reads
`self.peek()` (an out-of-bounds cursor would panic there, hence `peekT`). -/
def consumeT (T : List Token) (k : TokenKind) (msg : String) (c : Nat) :
    Except PErr (Token × Nat) :=
  pbind (checkT T k c) fun b c1 =>
    if b then advanceT T c1
    else
      pbind (peekT T c1) fun tok _ =>
        .error (.perr (msg ++ " (found: " ++ reprStr tok.kind ++ " at line:column " ++
          toString tok.line ++ ":" ++ toString tok.column ++ ")"))

/-- Embedding of `Parser::expect_identifier`. -/
def expectIdentifierT (T : List Token) (c : Nat) : Except PErr (String × Nat) :=
  pbind (peekT T c) fun tok c1 =>
    match tok.kind with
    | .ident name => pbind (advanceT T c1) fun _ c2 => .ok (name, c2)
    | _ => .error (.perr ("Expected identifier, found: " ++ reprStr tok.kind))

/-- Embedding of `Parser::is_struct_literal_ahead`: looks at the token after
the `\x7b` (guarded access via `get?`). -/
def isStructLiteralAheadT (T : List Token) (c : Nat) : Bool :=
  match T.get? (c + 1) with
  | some tok =>
      match tok.kind with
      | .ident _ => true
      | .rightBrace => true
      | _ => false
  | none => false

/-- Operator table of `Parser::match_binary_op`. -/
def tokenOp : TokenKind → Option BinaryOp
  | .plus => some .add
  | .minus => some .subtract
  | .star => some .multiply
  | .slash => some .divide
  | .percent => some .modulo
  | .equalEqual => some .equal
  | .bangEqual => some .notEqual
  | .greater => some .greater
  | .greaterEqual => some .greaterEqual
  | .less => some .less
  | .lessEqual => some .lessEqual
  | .ampAmp => some .andOp
  | .pipePipe => some .orOp
  | _ => none

/-- Embedding of `Parser::match_binary_op`, iterating the candidate kinds. -/
def matchBinaryOpT (T : List Token) : List TokenKind → Nat →
    Except PErr (Option BinaryOp × Nat)
  | [], c => .ok (none, c)
  | k :: ks, c =>
      pbind (checkT T k c) fun b c1 =>
        if b then
          match tokenOp k with
          | some op => pbind (advanceT T c1) fun _ c2 => .ok (some op, c2)
          | none => .ok (none, c1)
        else matchBinaryOpT T ks c1

/-- The `n as usize` cast for an `i32` array size (parse_type). -/
def i32AsUsize (n : Int) : Nat :=
  (n.emod (2 ^ 64)).toNat

/-- Helper for `ImportStmt::is_external`: `path.contains("::")`. -/
def containsColonColon : List Char → Bool
  | [] => false
  | [_] => false
  | a :: b :: rest =>
      if a = ':' ∧ b = ':' then true else containsColonColon (b :: rest)

set_option maxHeartbeats 4000000 in
mutual

/-- Embedding of `Parser::parse_statement` (keyword dispatch). -/
def parseStatementT (T : List Token) : Nat → Nat → Except PErr (Statement × Nat)
  | 0, _ => fuelErr
  | fuel + 1, c =>
      pbind (peekT T c) fun tok c0 =>
        match tok.kind with
        | .kImport => parseImportT T fuel c0
        | .kExport => parseExportT T fuel c0
        | .kLet => parseVariableDeclT T false fuel c0
        | .kConst => parseVariableDeclT T true fuel c0
        | .kFunction => parseFunctionDeclT T fuel c0
        | .kStruct => parseStructDeclT T fuel c0
        | .kEnum => parseEnumDeclT T fuel c0
        | .kPrint => parsePrintT T fuel c0
        | .kReturn => parseReturnT T fuel c0
        | .kIf => parseIfElseT T fuel c0
        | .kFor => parseForT T fuel c0
        | .kWhile => parseWhileT T fuel c0
        | .kBreak => parseBreakT T fuel c0
        | .kContinue => parseContinueT T fuel c0
        | .kTry => parseTryCatchT T fuel c0
        | .kThrow => parseThrowT T fuel c0
        | _ =>
            pbind (parseExpressionT T fuel c0) fun e c1 =>
            pbind (consumeT T .semicolon "Expected ; after statement" c1) fun _ c2 =>
            .ok (.expressionStmt e, c2)
termination_by structural fuel c => fuel


/-- Embedding of `Parser::parse_import_stmt`. -/
def parseImportT (T : List Token) : Nat → Nat → Except PErr (Statement × Nat)
  | 0, _ => fuelErr
  | fuel + 1, c =>
      pbind (advanceT T c) fun _ c1 =>
      pbind (checkT T .leftBrace c1) fun b c2 =>
      pbind
        (if b then
          pbind (advanceT T c2) fun _ c3 =>
          pbind (parseImportItemsT T fuel c3) fun imports c4 =>
          pbind (consumeT T .rightBrace "Expected \x7d after import list" c4) fun _ c5 =>
          pbind (consumeT T .kFrom "Expected from after import list" c5) fun _ c6 =>
          .ok (imports, c6)
        else
          pbind (peekT T c2) fun tok2 c3 =>
            match tok2.kind with
            | .ident _ =>
                pbind (expectIdentifierT T c3) fun name c4 =>
                pbind (matchTokenT T .kFrom c4) fun mb c5 =>
                if mb then .ok ([(name, (none : Option String))], c5)
                else .error (.perr "Expected from after import identifier")
            | .stringLit _ => .ok ([], c3)
            | _ =>
                .error (.perr "Expected \x7b, identifier, or string literal in import statement"))
        fun imports c6 =>
      pbind (peekT T c6) fun tok3 c7 =>
        match tok3.kind with
        | .stringLit s =>
            pbind (advanceT T c7) fun _ c8 =>
            let isExternal := containsColonColon s.data || !(s.data.head? == some '.')
            pbind (matchTokenT T .kAs c8) fun ab c9 =>
            pbind
              (if ab then
                pbind (expectIdentifierT T c9) fun a c10 => .ok (some a, c10)
              else .ok ((none : Option String), c9)) fun aliasOpt c10 =>
            let imports2 :=
              if aliasOpt.isSome then
                match imports with
                | (n, _) :: restI => (n, aliasOpt) :: restI
                | [] => []
              else imports
            pbind (consumeT T .semicolon "Expected ; after import statement" c10) fun _ c11 =>
            .ok (.importStmt imports2 s isExternal, c11)
        | _ => .error (.perr "Expected string literal for import path")


/-- Loop over `name [as alias]` items in a braced import list. -/
def parseImportItemsT (T : List Token) : Nat → Nat →
    Except PErr (List (String × Option String) × Nat)
  | 0, _ => fuelErr
  | fuel + 1, c =>
      pbind (expectIdentifierT T c) fun name c1 =>
      pbind (matchTokenT T .kAs c1) fun ab c2 =>
      pbind
        (if ab then pbind (expectIdentifierT T c2) fun a c3 => .ok (some a, c3)
        else .ok ((none : Option String), c2)) fun aliasOpt c3 =>
      pbind (matchTokenT T .comma c3) fun mb c4 =>
      if mb then
        pbind (parseImportItemsT T fuel c4) fun rest c5 => .ok ((name, aliasOpt) :: rest, c5)
      else .ok ([(name, aliasOpt)], c4)
termination_by structural fuel c => fuel


/-- Embedding of `Parser::parse_export_stmt`. -/
def parseExportT (T : List Token) : Nat → Nat → Except PErr (Statement × Nat)
  | 0, _ => fuelErr
  | fuel + 1, c =>
      pbind (advanceT T c) fun _ c1 =>
      pbind (peekT T c1) fun tok c2 =>
      pbind
        (match tok.kind with
          | .kFunction => parseFunctionDeclT T fuel c2
          | .kStruct => parseStructDeclT T fuel c2
          | .kEnum => parseEnumDeclT T fuel c2
          | .kConst => parseVariableDeclT T true fuel c2
          | .kLet => parseVariableDeclT T false fuel c2
          | _ => .error (.perr "Expected function, struct, enum, const, or let after export"))
        fun inner c3 =>
      .ok (.exportStmt inner, c3)
termination_by structural fuel c => fuel


/-- Embedding of `Parser::parse_variable_decl`. -/
def parseVariableDeclT (T : List Token) (isConst : Bool) : Nat → Nat →
    Except PErr (Statement × Nat)
  | 0, _ => fuelErr
  | fuel + 1, c =>
      pbind (advanceT T c) fun _ c1 =>
      pbind (expectIdentifierT T c1) fun name c2 =>
      pbind (matchTokenT T .colon c2) fun mb c3 =>
      pbind
        (if mb then pbind (parseTypeT T fuel c3) fun t c4 => .ok (some t, c4)
        else .ok ((none : Option Ty), c3)) fun varType c4 =>
      pbind (consumeT T .equal "Expected = in variable declaration" c4) fun _ c5 =>
      pbind (parseExpressionT T fuel c5) fun value c6 =>
      pbind (consumeT T .semicolon "Expected ; after variable declaration" c6) fun _ c7 =>
      .ok (.variableDecl name varType value isConst, c7)


/-- Embedding of `Parser::parse_function_decl`. -/
def parseFunctionDeclT (T : List Token) : Nat → Nat → Except PErr (Statement × Nat)
  | 0, _ => fuelErr
  | fuel + 1, c =>
      pbind (advanceT T c) fun _ c1 =>
      pbind (expectIdentifierT T c1) fun name c2 =>
      pbind (consumeT T .leftParen "Expected ( after function name" c2) fun _ c3 =>
      pbind (checkT T .rightParen c3) fun b c4 =>
      pbind
        (if b then .ok (([] : List (String × Ty)), c4) else parseParamsT T fuel c4)
        fun params c5 =>
      pbind (consumeT T .rightParen "Expected ) after parameters" c5) fun _ c6 =>
      pbind (consumeT T .colon "Expected : after function signature" c6) fun _ c7 =>
      pbind (parseTypeT T fuel c7) fun retTy c8 =>
      pbind (consumeT T .leftBrace "Expected \x7b before function body" c8) fun _ c9 =>
      pbind (parseFnBodyT T fuel c9) fun body c10 =>
      pbind (consumeT T .rightBrace "Expected \x7d after function body" c10) fun _ c11 =>
      .ok (.functionDecl name params retTy body, c11)
termination_by structural fuel c => fuel


/-- Parameter-list loop of `parse_function_decl`. -/
def parseParamsT (T : List Token) : Nat → Nat → Except PErr (List (String × Ty) × Nat)
  | 0, _ => fuelErr
  | fuel + 1, c =>
      pbind (expectIdentifierT T c) fun pname c1 =>
      pbind (consumeT T .colon "Expected : in parameter" c1) fun _ c2 =>
      pbind (parseTypeT T fuel c2) fun pty c3 =>
      pbind (matchTokenT T .comma c3) fun mb c4 =>
      if mb then
        pbind (parseParamsT T fuel c4) fun rest c5 => .ok ((pname, pty) :: rest, c5)
      else .ok ([(pname, pty)], c4)
termination_by structural fuel c => fuel


/-- Function-body statement loop of `parse_function_decl` (the no-op
`skip_newlines` call is dropped; the redundant second brace check is kept). -/
def parseFnBodyT (T : List Token) : Nat → Nat → Except PErr (List Statement × Nat)
  | 0, _ => fuelErr
  | fuel + 1, c =>
      pbind (checkT T .rightBrace c) fun b c1 =>
      if b then .ok ([], c1)
      else
        pbind (isAtEndT T c1) fun e c2 =>
        if e then .ok ([], c2)
        else
          pbind (checkT T .rightBrace c2) fun b2 c3 =>
          if b2 then .ok ([], c3)
          else
            pbind (parseStatementT T fuel c3) fun s c4 =>
            pbind (parseFnBodyT T fuel c4) fun rest c5 => .ok (s :: rest, c5)
termination_by structural fuel c => fuel


/-- Embedding of `Parser::parse_print_stmt`. -/
def parsePrintT (T : List Token) : Nat → Nat → Except PErr (Statement × Nat)
  | 0, _ => fuelErr
  | fuel + 1, c =>
      pbind (advanceT T c) fun _ c1 =>
      pbind (consumeT T .leftParen "Expected ( after print" c1) fun _ c2 =>
      pbind (parseExpressionT T fuel c2) fun e c3 =>
      pbind (consumeT T .rightParen "Expected ) after print expression" c3) fun _ c4 =>
      pbind (consumeT T .semicolon "Expected ; after print statement" c4) fun _ c5 =>
      .ok (.printStmt e, c5)


/-- Embedding of `Parser::parse_return_stmt`. -/
def parseReturnT (T : List Token) : Nat → Nat → Except PErr (Statement × Nat)
  | 0, _ => fuelErr
  | fuel + 1, c =>
      pbind (advanceT T c) fun _ c1 =>
      pbind (checkT T .semicolon c1) fun b c2 =>
      pbind
        (if b then .ok ((none : Option Expression), c2)
        else pbind (parseExpressionT T fuel c2) fun e c3 => .ok (some e, c3))
        fun value c3 =>
      pbind (consumeT T .semicolon "Expected ; after return statement" c3) fun _ c4 =>
      .ok (.returnStmt value, c4)


/-- Embedding of `Parser::parse_if_else_stmt`. -/
def parseIfElseT (T : List Token) : Nat → Nat → Except PErr (Statement × Nat)
  | 0, _ => fuelErr
  | fuel + 1, c =>
      pbind (advanceT T c) fun _ c1 =>
      pbind (parseExpressionT T fuel c1) fun cond c2 =>
      pbind (consumeT T .leftBrace "Expected \x7b after if condition" c2) fun _ c3 =>
      pbind (parseBlockT T fuel c3) fun thenBody c4 =>
      pbind (consumeT T .rightBrace "Expected \x7d after if block" c4) fun _ c5 =>
      pbind (matchTokenT T .kElse c5) fun mb c6 =>
      pbind
        (if mb then
          pbind (consumeT T .leftBrace "Expected \x7b after else" c6) fun _ c7 =>
          pbind (parseBlockT T fuel c7) fun blk c8 =>
          pbind (consumeT T .rightBrace "Expected \x7d after else block" c8) fun _ c9 =>
          .ok (some blk, c9)
        else .ok ((none : Option (List Statement)), c6)) fun elseBody c7 =>
      .ok (.ifElse cond thenBody elseBody, c7)
termination_by structural fuel c => fuel


/-- Embedding of `Parser::parse_for_loop`. -/
def parseForT (T : List Token) : Nat → Nat → Except PErr (Statement × Nat)
  | 0, _ => fuelErr
  | fuel + 1, c =>
      pbind (advanceT T c) fun _ c1 =>
      pbind (expectIdentifierT T c1) fun v c2 =>
      pbind (consumeT T .kIn "Expected in in for loop" c2) fun _ c3 =>
      pbind (parseExpressionT T fuel c3) fun iter c4 =>
      pbind (consumeT T .leftBrace "Expected \x7b after for condition" c4) fun _ c5 =>
      pbind (parseBlockT T fuel c5) fun body c6 =>
      pbind (consumeT T .rightBrace "Expected \x7d after for block" c6) fun _ c7 =>
      .ok (.forLoop v iter body, c7)
termination_by structural fuel c => fuel


/-- Embedding of `Parser::parse_while_loop`. -/
def parseWhileT (T : List Token) : Nat → Nat → Except PErr (Statement × Nat)
  | 0, _ => fuelErr
  | fuel + 1, c =>
      pbind (advanceT T c) fun _ c1 =>
      pbind (parseExpressionT T fuel c1) fun cond c2 =>
      pbind (consumeT T .leftBrace "Expected \x7b after while condition" c2) fun _ c3 =>
      pbind (parseBlockT T fuel c3) fun body c4 =>
      pbind (consumeT T .rightBrace "Expected \x7d after while block" c4) fun _ c5 =>
      .ok (.whileLoop cond body, c5)
termination_by structural fuel c => fuel


/-- Embedding of `Parser::parse_break_stmt`. -/
def parseBreakT (T : List Token) : Nat → Nat → Except PErr (Statement × Nat)
  | 0, _ => fuelErr
  | _ + 1, c =>
      pbind (advanceT T c) fun _ c1 =>
      pbind (consumeT T .semicolon "Expected ; after break" c1) fun _ c2 =>
      .ok (.breakStmt, c2)


/-- Embedding of `Parser::parse_continue_stmt`. -/
def parseContinueT (T : List Token) : Nat → Nat → Except PErr (Statement × Nat)
  | 0, _ => fuelErr
  | _ + 1, c =>
      pbind (advanceT T c) fun _ c1 =>
      pbind (consumeT T .semicolon "Expected ; after continue" c1) fun _ c2 =>
      .ok (.continueStmt, c2)


/-- Embedding of `Parser::parse_struct_decl`. -/
def parseStructDeclT (T : List Token) : Nat → Nat → Except PErr (Statement × Nat)
  | 0, _ => fuelErr
  | fuel + 1, c =>
      pbind (advanceT T c) fun _ c1 =>
      pbind (expectIdentifierT T c1) fun name c2 =>
      pbind (consumeT T .leftBrace "Expected \x7b after struct name" c2) fun _ c3 =>
      pbind (parseStructFieldsT T fuel c3) fun fields c4 =>
      pbind (consumeT T .rightBrace "Expected \x7d after struct fields" c4) fun _ c5 =>
      .ok (.structDecl name fields, c5)


/-- Field loop of `parse_struct_decl`. -/
def parseStructFieldsT (T : List Token) : Nat → Nat →
    Except PErr (List (String × Ty) × Nat)
  | 0, _ => fuelErr
  | fuel + 1, c =>
      pbind (checkT T .rightBrace c) fun b c1 =>
      if b then .ok ([], c1)
      else
        pbind (isAtEndT T c1) fun e c2 =>
        if e then .ok ([], c2)
        else
          pbind (expectIdentifierT T c2) fun fname c3 =>
          pbind (consumeT T .colon "Expected : after field name" c3) fun _ c4 =>
          pbind (parseTypeT T fuel c4) fun fty c5 =>
          pbind (matchTokenT T .comma c5) fun mb c6 =>
          if mb then
            pbind (parseStructFieldsT T fuel c6) fun rest c7 =>
              .ok ((fname, fty) :: rest, c7)
          else
            pbind (checkT T .rightBrace c6) fun b2 c7 =>
            if b2 then
              pbind (parseStructFieldsT T fuel c7) fun rest c8 =>
                .ok ((fname, fty) :: rest, c8)
            else .error (.perr "Expected , or \x7d after struct field")
termination_by structural fuel c => fuel


/-- Embedding of `Parser::parse_enum_decl`. -/
def parseEnumDeclT (T : List Token) : Nat → Nat → Except PErr (Statement × Nat)
  | 0, _ => fuelErr
  | fuel + 1, c =>
      pbind (advanceT T c) fun _ c1 =>
      pbind (expectIdentifierT T c1) fun name c2 =>
      pbind (consumeT T .leftBrace "Expected \x7b after enum name" c2) fun _ c3 =>
      pbind (parseEnumVariantsT T fuel c3) fun variants c4 =>
      pbind (consumeT T .rightBrace "Expected \x7d after enum variants" c4) fun _ c5 =>
      .ok (.enumDecl name variants, c5)


/-- Variant loop of `parse_enum_decl`. -/
def parseEnumVariantsT (T : List Token) : Nat → Nat →
    Except PErr (List (String × Option (List Ty)) × Nat)
  | 0, _ => fuelErr
  | fuel + 1, c =>
      pbind (checkT T .rightBrace c) fun b c1 =>
      if b then .ok ([], c1)
      else
        pbind (isAtEndT T c1) fun e c2 =>
        if e then .ok ([], c2)
        else
          pbind (expectIdentifierT T c2) fun vname c3 =>
          pbind (matchTokenT T .leftParen c3) fun mp c4 =>
          pbind
            (if mp then
              pbind (checkT T .rightParen c4) fun br c5 =>
              pbind
                (if br then .ok (([] : List Ty), c5)
                else parseEnumVariantTypesT T fuel c5) fun ts c6 =>
              pbind (consumeT T .rightParen "Expected ) after enum variant fields" c6)
                fun _ c7 =>
              .ok (some ts, c7)
            else .ok ((none : Option (List Ty)), c4)) fun fields c5 =>
          pbind (matchTokenT T .comma c5) fun mb c6 =>
          if mb then
            pbind (parseEnumVariantsT T fuel c6) fun rest c7 =>
              .ok ((vname, fields) :: rest, c7)
          else
            pbind (checkT T .rightBrace c6) fun b2 c7 =>
            if b2 then
              pbind (parseEnumVariantsT T fuel c7) fun rest c8 =>
                .ok ((vname, fields) :: rest, c8)
            else .error (.perr "Expected , or \x7d after enum variant")
termination_by structural fuel c => fuel


/-- Associated-type loop of an enum variant. -/
def parseEnumVariantTypesT (T : List Token) : Nat → Nat → Except PErr (List Ty × Nat)
  | 0, _ => fuelErr
  | fuel + 1, c =>
      pbind (parseTypeT T fuel c) fun t c1 =>
      pbind (matchTokenT T .comma c1) fun mb c2 =>
      if mb then
        pbind (parseEnumVariantTypesT T fuel c2) fun rest c3 => .ok (t :: rest, c3)
      else .ok ([t], c2)
termination_by structural fuel c => fuel


/-- Embedding of `Parser::parse_try_catch`. -/
def parseTryCatchT (T : List Token) : Nat → Nat → Except PErr (Statement × Nat)
  | 0, _ => fuelErr
  | fuel + 1, c =>
      pbind (advanceT T c) fun _ c1 =>
      pbind (consumeT T .leftBrace "Expected \x7b after try" c1) fun _ c2 =>
      pbind (parseBlockT T fuel c2) fun tryBody c3 =>
      pbind (consumeT T .rightBrace "Expected \x7d after try block" c3) fun _ c4 =>
      pbind (consumeT T .kCatch "Expected catch after try block" c4) fun _ c5 =>
      pbind (matchTokenT T .leftParen c5) fun mp c6 =>
      pbind
        (if mp then
          pbind (expectIdentifierT T c6) fun p c7 =>
          pbind (consumeT T .rightParen "Expected ) after catch parameter" c7) fun _ c8 =>
          .ok (some p, c8)
        else .ok ((none : Option String), c6)) fun param c7 =>
      pbind (consumeT T .leftBrace "Expected \x7b after catch" c7) fun _ c8 =>
      pbind (parseBlockT T fuel c8) fun catchBody c9 =>
      pbind (consumeT T .rightBrace "Expected \x7d after catch block" c9) fun _ c10 =>
      .ok (.tryCatch tryBody param catchBody, c10)
termination_by structural fuel c => fuel


/-- Embedding of `Parser::parse_throw_stmt`. -/
def parseThrowT (T : List Token) : Nat → Nat → Except PErr (Statement × Nat)
  | 0, _ => fuelErr
  | fuel + 1, c =>
      pbind (advanceT T c) fun _ c1 =>
      pbind (parseExpressionT T fuel c1) fun e c2 =>
      pbind (consumeT T .semicolon "Expected ; after throw statement" c2) fun _ c3 =>
      .ok (.throwStmt e, c3)


/-- Embedding of `Parser::parse_block`. -/
def parseBlockT (T : List Token) : Nat → Nat → Except PErr (List Statement × Nat)
  | 0, _ => fuelErr
  | fuel + 1, c =>
      pbind (checkT T .rightBrace c) fun b c1 =>
      if b then .ok ([], c1)
      else
        pbind (isAtEndT T c1) fun e c2 =>
        if e then .ok ([], c2)
        else
          pbind (parseStatementT T fuel c2) fun s c3 =>
          pbind (parseBlockT T fuel c3) fun rest c4 => .ok (s :: rest, c4)
termination_by structural fuel c => fuel


/-- Embedding of `Parser::parse_expression`. -/
def parseExpressionT (T : List Token) : Nat → Nat → Except PErr (Expression × Nat)
  | 0, _ => fuelErr
  | fuel + 1, c => parseLogicalOrT T fuel c
termination_by structural fuel c => fuel


/-- Embedding of `Parser::parse_logical_or`. -/
def parseLogicalOrT (T : List Token) : Nat → Nat → Except PErr (Expression × Nat)
  | 0, _ => fuelErr
  | fuel + 1, c =>
      pbind (parseLogicalAndT T fuel c) fun e c1 => parseOrLoopT T fuel e c1
termination_by structural fuel c => fuel


/-- Operator loop of `parse_logical_or`. -/
def parseOrLoopT (T : List Token) : Nat → Expression → Nat → Except PErr (Expression × Nat)
  | 0, _, _ => fuelErr
  | fuel + 1, e, c =>
      pbind (matchBinaryOpT T [.pipePipe] c) fun op c1 =>
        match op with
        | some o =>
            pbind (parseLogicalAndT T fuel c1) fun r c2 =>
              parseOrLoopT T fuel (.binaryOp e o r) c2
        | none => .ok (e, c1)
termination_by structural fuel e c => fuel


/-- Embedding of `Parser::parse_logical_and`. -/
def parseLogicalAndT (T : List Token) : Nat → Nat → Except PErr (Expression × Nat)
  | 0, _ => fuelErr
  | fuel + 1, c =>
      pbind (parseComparisonT T fuel c) fun e c1 => parseAndLoopT T fuel e c1
termination_by structural fuel c => fuel


/-- Operator loop of `parse_logical_and`. -/
def parseAndLoopT (T : List Token) : Nat → Expression → Nat → Except PErr (Expression × Nat)
  | 0, _, _ => fuelErr
  | fuel + 1, e, c =>
      pbind (matchBinaryOpT T [.ampAmp] c) fun op c1 =>
        match op with
        | some o =>
            pbind (parseComparisonT T fuel c1) fun r c2 =>
              parseAndLoopT T fuel (.binaryOp e o r) c2
        | none => .ok (e, c1)
termination_by structural fuel e c => fuel


/-- Embedding of `Parser::parse_comparison`. -/
def parseComparisonT (T : List Token) : Nat → Nat → Except PErr (Expression × Nat)
  | 0, _ => fuelErr
  | fuel + 1, c =>
      pbind (parseAdditiveT T fuel c) fun e c1 => parseComparisonLoopT T fuel e c1
termination_by structural fuel c => fuel


/-- Operator loop of `parse_comparison`. -/
def parseComparisonLoopT (T : List Token) : Nat → Expression → Nat →
    Except PErr (Expression × Nat)
  | 0, _, _ => fuelErr
  | fuel + 1, e, c =>
      pbind
        (matchBinaryOpT T
          [.equalEqual, .bangEqual, .greater, .greaterEqual, .less, .lessEqual] c)
        fun op c1 =>
        match op with
        | some o =>
            pbind (parseAdditiveT T fuel c1) fun r c2 =>
              parseComparisonLoopT T fuel (.binaryOp e o r) c2
        | none => .ok (e, c1)
termination_by structural fuel e c => fuel


/-- Embedding of `Parser::parse_additive`. -/
def parseAdditiveT (T : List Token) : Nat → Nat → Except PErr (Expression × Nat)
  | 0, _ => fuelErr
  | fuel + 1, c =>
      pbind (parseMultiplicativeT T fuel c) fun e c1 => parseAdditiveLoopT T fuel e c1
termination_by structural fuel c => fuel


/-- Operator loop of `parse_additive`. -/
def parseAdditiveLoopT (T : List Token) : Nat → Expression → Nat →
    Except PErr (Expression × Nat)
  | 0, _, _ => fuelErr
  | fuel + 1, e, c =>
      pbind (matchBinaryOpT T [.plus, .minus] c) fun op c1 =>
        match op with
        | some o =>
            pbind (parseMultiplicativeT T fuel c1) fun r c2 =>
              parseAdditiveLoopT T fuel (.binaryOp e o r) c2
        | none => .ok (e, c1)
termination_by structural fuel e c => fuel


/-- Embedding of `Parser::parse_multiplicative`. -/
def parseMultiplicativeT (T : List Token) : Nat → Nat → Except PErr (Expression × Nat)
  | 0, _ => fuelErr
  | fuel + 1, c =>
      pbind (parsePrimaryT T fuel c) fun e c1 => parseMultiplicativeLoopT T fuel e c1
termination_by structural fuel c => fuel


/-- Operator loop of `parse_multiplicative`. -/
def parseMultiplicativeLoopT (T : List Token) : Nat → Expression → Nat →
    Except PErr (Expression × Nat)
  | 0, _, _ => fuelErr
  | fuel + 1, e, c =>
      pbind (matchBinaryOpT T [.star, .slash, .percent] c) fun op c1 =>
        match op with
        | some o =>
            pbind (parsePrimaryT T fuel c1) fun r c2 =>
              parseMultiplicativeLoopT T fuel (.binaryOp e o r) c2
        | none => .ok (e, c1)
termination_by structural fuel e c => fuel


/-- Embedding of `Parser::parse_primary` (the leading token dispatch; the
trailing postfix loop is `parsePostfixT`). -/
def parsePrimaryT (T : List Token) : Nat → Nat → Except PErr (Expression × Nat)
  | 0, _ => fuelErr
  | fuel + 1, c =>
      pbind (peekT T c) fun tok c0 =>
        match tok.kind with
        | .numberLit n =>
            pbind (advanceT T c0) fun _ c1 => parsePostfixT T fuel (.numberLiteral n) c1
        | .stringLit s =>
            pbind (advanceT T c0) fun _ c1 => parsePostfixT T fuel (.stringLiteral s) c1
        | .boolLit b =>
            pbind (advanceT T c0) fun _ c1 => parsePostfixT T fuel (.booleanLiteral b) c1
        | .ident name =>
            pbind (advanceT T c0) fun _ c1 =>
            pbind (matchTokenT T .leftParen c1) fun mp c2 =>
            if mp then
              pbind (checkT T .rightParen c2) fun b c3 =>
              pbind
                (if b then .ok (([] : List Expression), c3) else parseCallArgsT T fuel c3)
                fun args c4 =>
              pbind (consumeT T .rightParen "Expected ) after function arguments" c4)
                fun _ c5 =>
              parsePostfixT T fuel (.functionCall name args) c5
            else
              pbind (checkT T .leftBrace c2) fun bb c3 =>
              if bb && isStructLiteralAheadT T c3 then
                pbind (advanceT T c3) fun _ c4 =>
                pbind (parseStructFieldInitsT T fuel c4) fun fields c5 =>
                pbind (consumeT T .rightBrace "Expected \x7d after struct literal" c5)
                  fun _ c6 =>
                parsePostfixT T fuel (.structLiteral name fields) c6
              else parsePostfixT T fuel (.identifier name) c3
        | .leftBracket =>
            pbind (advanceT T c0) fun _ c1 =>
            pbind (checkT T .rightBracket c1) fun b c2 =>
            pbind
              (if b then .ok (([] : List Expression), c2) else parseCallArgsT T fuel c2)
              fun elems c3 =>
            pbind (consumeT T .rightBracket "Expected ] after array elements" c3) fun _ c4 =>
            parsePostfixT T fuel (.arrayLiteral elems) c4
        | .bang =>
            pbind (advanceT T c0) fun _ c1 =>
            pbind (parsePrimaryT T fuel c1) fun e c2 =>
            parsePostfixT T fuel (.binaryOp (.booleanLiteral false) .andOp e) c2
        | .leftParen =>
            pbind (advanceT T c0) fun _ c1 =>
            pbind (parseExpressionT T fuel c1) fun e c2 =>
            pbind (consumeT T .rightParen "Expected ) after expression" c2) fun _ c3 =>
            parsePostfixT T fuel e c3
        | _ => .error (.perr ("Unexpected token in expression: " ++ reprStr tok.kind))
termination_by structural fuel c => fuel


/-- Field-initializer loop of the struct-literal branch of `parse_primary`. -/
def parseStructFieldInitsT (T : List Token) : Nat → Nat →
    Except PErr (List (String × Expression) × Nat)
  | 0, _ => fuelErr
  | fuel + 1, c =>
      pbind (checkT T .rightBrace c) fun b c1 =>
      if b then .ok ([], c1)
      else
        pbind (isAtEndT T c1) fun e c2 =>
        if e then .ok ([], c2)
        else
          pbind (expectIdentifierT T c2) fun fname c3 =>
          pbind (consumeT T .colon "Expected : after field name" c3) fun _ c4 =>
          pbind (parseExpressionT T fuel c4) fun fval c5 =>
          pbind (matchTokenT T .comma c5) fun mb c6 =>
          if mb then
            pbind (parseStructFieldInitsT T fuel c6) fun rest c7 =>
              .ok ((fname, fval) :: rest, c7)
          else .ok ([(fname, fval)], c6)
termination_by structural fuel c => fuel


/-- Comma-separated expression loop (function-call arguments, method-call
arguments and array-literal elements all use this shape). -/
def parseCallArgsT (T : List Token) : Nat → Nat → Except PErr (List Expression × Nat)
  | 0, _ => fuelErr
  | fuel + 1, c =>
      pbind (parseExpressionT T fuel c) fun e c1 =>
      pbind (matchTokenT T .comma c1) fun mb c2 =>
      if mb then
        pbind (parseCallArgsT T fuel c2) fun rest c3 => .ok (e :: rest, c3)
      else .ok ([e], c2)
termination_by structural fuel c => fuel


/-- The trailing `[index]` / `.member` / `.method(args)` loop at the end of
`parse_primary`. -/
def parsePostfixT (T : List Token) : Nat → Expression → Nat → Except PErr (Expression × Nat)
  | 0, _, _ => fuelErr
  | fuel + 1, e, c =>
      pbind (checkT T .leftBracket c) fun cb c1 =>
      pbind (checkT T .dot c1) fun cd c2 =>
      if !(cb || cd) then .ok (e, c2)
      else
        pbind (matchTokenT T .leftBracket c2) fun mb c3 =>
        if mb then
          pbind (parseExpressionT T fuel c3) fun idx c4 =>
          pbind (consumeT T .rightBracket "Expected ] after index" c4) fun _ c5 =>
          parsePostfixT T fuel (.indexAccess e idx) c5
        else
          pbind (matchTokenT T .dot c3) fun md c4 =>
          if md then
            pbind (expectIdentifierT T c4) fun member c5 =>
            pbind (matchTokenT T .leftParen c5) fun mp c6 =>
            if mp then
              pbind (checkT T .rightParen c6) fun b c7 =>
              pbind
                (if b then .ok (([] : List Expression), c7) else parseCallArgsT T fuel c7)
                fun args c8 =>
              pbind (consumeT T .rightParen "Expected ) after method arguments" c8)
                fun _ c9 =>
              parsePostfixT T fuel (.methodCall e member args) c9
            else parsePostfixT T fuel (.memberAccess e member) c6
          else .ok (e, c4)
termination_by structural fuel e c => fuel


/-- Embedding of `Parser::parse_type`. -/
def parseTypeT (T : List Token) : Nat → Nat → Except PErr (Ty × Nat)
  | 0, _ => fuelErr
  | fuel + 1, c =>
      pbind (peekT T c) fun tok c0 =>
      pbind
        (match tok.kind with
          | .numberType => pbind (advanceT T c0) fun _ c1 => .ok (Ty.number, c1)
          | .stringType => pbind (advanceT T c0) fun _ c1 => .ok (Ty.string, c1)
          | .booleanType => pbind (advanceT T c0) fun _ c1 => .ok (Ty.boolean, c1)
          | .kVoid => pbind (advanceT T c0) fun _ c1 => .ok (Ty.void, c1)
          | .kAny => pbind (advanceT T c0) fun _ c1 => .ok (Ty.any, c1)
          | .ident name => pbind (advanceT T c0) fun _ c1 => .ok (Ty.custom name, c1)
          | _ => .error (.perr ("Expected type, found: " ++ reprStr tok.kind)))
        fun base c1 =>
      pbind (matchTokenT T .leftBracket c1) fun mb c2 =>
      if mb then
        pbind (checkT T .rightBracket c2) fun b c3 =>
        if b then
          pbind (advanceT T c3) fun _ c4 => .ok (Ty.array base none, c4)
        else
          pbind (parseTypeT T fuel c3) fun elem c4 =>
          pbind (matchTokenT T .comma c4) fun mc c5 =>
          pbind
            (if mc then
              pbind (peekT T c5) fun tok2 c6 =>
                match tok2.kind with
                | .numberLit n =>
                    pbind (advanceT T c6) fun _ c7 => .ok (some (i32AsUsize n), c7)
                | _ => .error (.perr "Expected number literal for array size")
            else .ok ((none : Option Nat), c5)) fun size c6 =>
          pbind (consumeT T .rightBracket "Expected ] after array type" c6) fun _ c7 =>
          .ok (Ty.array elem size, c7)
      else .ok (base, c2)
termination_by structural fuel c => fuel

end

/-- Embedding of the top-level loop of `Parser::parse` (the no-op
`skip_newlines` makes its two end checks coincide; both are kept). -/
def parseTopT (T : List Token) : Nat → Nat → Except PErr (List Statement × Nat)
  | 0, _ => fuelErr
  | fuel + 1, c =>
      pbind (isAtEndT T c) fun e c0 =>
      if e then .ok ([], c0)
      else
        pbind (isAtEndT T c0) fun e2 c1 =>
        if e2 then .ok ([], c1)
        else
          pbind (parseStatementT T fuel c1) fun s c2 =>
          pbind (parseTopT T fuel c2) fun rest c3 => .ok (s :: rest, c3)

/-- Embedding of `Parser::parse`, starting at cursor 0; the final cursor is
returned alongside the program. -/
def parseT (T : List Token) (fuel : Nat) : Except PErr (Program × Nat) :=
  pbind (parseTopT T fuel 0) fun stmts c => .ok (⟨stmts⟩, c)

/-- Embedding of codegen.rs `to_snake_case` (ASCII case model): the
accumulator loop with one-character lookahead (`chars.peek()`). -/
def toSnakeAux : List Char → Bool → List Char → List Char
  | [], _, result => result
  | ch :: rest, prevLower, result =>
      if ch.isUpper then
        let result2 :=
          if prevLower ||
              (decide (result.length > 0) &&
                (match rest with | c2 :: _ => c2.isLower | [] => false)) then
            if result.length > 0 then result ++ ['_'] else result
          else result
        toSnakeAux rest false (result2 ++ [ch.toLower])
      else
        toSnakeAux rest ch.isLower (result ++ [ch])

/-- Embedding of codegen.rs `to_snake_case` on strings. -/
def to_snake_case (s : String) : String :=
  ⟨toSnakeAux s.data false []⟩

/-- Rust `str::to_uppercase` (ASCII case model). -/
def toUpperStr (s : String) : String :=
  ⟨s.data.map Char.toUpper⟩

/-- Embedding of codegen.rs `convert_name`: an all-uppercase/underscore/digit
name is uppercased (kept as is), anything else goes through `to_snake_case`. -/
def convert_name (s : String) : String :=
  if s.data.all (fun c => c.isUpper || c = '_' || c.isDigit) then toUpperStr s
  else to_snake_case s

/-- Test for an immediate string-literal operand
(`matches!(expr, Expression::StringLiteral(_))`). -/
def isStringLitE : Expression → Bool
  | .stringLiteral _ => true
  | _ => false

/-- Test for an array-literal initializer. -/
def isArrayLitE : Expression → Bool
  | .arrayLiteral _ => true
  | _ => false

/-- Embedding of `Codegen::collect_string_parts`: flattens a `+` tree along
edges whose node has an immediate string-literal operand. -/
def collectStringParts : Expression → List Expression
  | .binaryOp l .add r =>
      if isStringLitE l || isStringLitE r then
        collectStringParts l ++ collectStringParts r
      else [.binaryOp l .add r]
  | e => [e]

/-- Embedding of `Codegen::emit_binary_op`. -/
def emitBinaryOpStr : BinaryOp → String
  | .add => "+"
  | .subtract => "-"
  | .multiply => "*"
  | .divide => "/"
  | .modulo => "%"
  | .equal => "=="
  | .notEqual => "!="
  | .greater => ">"
  | .greaterEqual => ">="
  | .less => "<"
  | .lessEqual => "<="
  | .andOp => "&&"
  | .orOp => "||"

/-- Embedding of `Codegen::emit_type`. -/
def emitTy : Ty → String
  | .number => "i32"
  | .string => "String"
  | .boolean => "bool"
  | .void => "()"
  | .any => "String"
  | .array elem (some n) => "[" ++ emitTy elem ++ "; " ++ toString n ++ "]"
  | .array elem none => "Vec<" ++ emitTy elem ++ ">"
  | .custom name => name
  | .inferred => ""

/-- The method-name dispatch of `Codegen::generate_expression` for
`Expression::MethodCall`, factored over the already-generated receiver text
and argument texts (each branch of the source uses the arguments only
through `generate_expression`, so this factoring is behaviour-preserving). -/
def genMethodCallStr (objStr m : String) (argStrs : List String) : String :=
  objStr ++ "." ++
  (if m = "push" then "push(" ++ String.intercalate ", " argStrs ++ ")"
  else if m = "pop" then "pop()"
  else if m = "shift" then "remove(0)"
  else if m = "unshift" then
    "insert(0, " ++ (match argStrs with | a :: _ => a | [] => "") ++ ")"
  else if m = "slice" then
    "[" ++ (match argStrs with | a :: _ => a ++ " as usize" | [] => "0") ++
    ".." ++ (match argStrs with | _ :: b :: _ => b ++ " as usize" | _ => "") ++
    "].to_vec()"
  else if m = "map" ∨ m = "filter" then
    m ++ "(" ++ String.intercalate ", " argStrs ++ ").collect()"
  else if m = "charAt" then
    "chars().nth(" ++ (match argStrs with | a :: _ => a ++ " as usize" | [] => "") ++
    ").unwrap_or(\x27\\0\x27)"
  else if m = "substring" then
    "chars().skip(" ++ (match argStrs with | a :: _ => a ++ " as usize" | [] => "0") ++
    ").take(" ++
    (match argStrs with
      | a :: b :: _ => "(" ++ b ++ " - " ++ a ++ ") as usize"
      | _ => "usize::MAX") ++
    ").collect::<String>()"
  else if m = "indexOf" then
    "find(" ++ (match argStrs with | a :: _ => a | [] => "") ++
    ").map(|i| i as i32).unwrap_or(-1)"
  else if m = "toUpperCase" then "to_uppercase()"
  else if m = "toLowerCase" then "to_lowercase()"
  else if m = "trim" then "trim().to_string()"
  else if m = "split" then
    "split(" ++ (match argStrs with | a :: _ => a | [] => "") ++
    ").map(|s| s.to_string()).collect::<Vec<String>>()"
  else if m = "join" then
    "join(" ++ (match argStrs with | a :: _ => a | [] => "\x22, \x22") ++ ")"
  else if m = "reverse" then "iter().rev().cloned().collect::<Vec<_>>()"
  else if m = "sort" then "sort()"
  else if m = "includes" ∨ m = "contains" then
    "contains(" ++ (match argStrs with | a :: _ => "&" ++ a | [] => "") ++ ")"
  else m ++ "(" ++ String.intercalate ", " argStrs ++ ")")

/-- The `+` emission of `Codegen::generate_expression`, factored over the
string-operand test, the collected part texts, and the generated operand
texts. -/
def genAddCombine (isStr : Bool) (parts : List String) (lStr rStr : String) : String :=
  if isStr then
    if parts.length > 1 then
      "format!(\x22" ++ String.join (parts.map fun _ => "\x7b\x7d") ++ "\x22, " ++
        String.intercalate ", " parts ++ ")"
    else lStr ++ ".to_string() + &" ++ rStr ++ ".to_string()"
  else lStr ++ " + " ++ rStr

mutual

/-- Embedding of `Codegen::generate_expression` as a pure function from the
expression to the text it appends (the method only writes to the output
buffer, never reads it). -/
def genExpr : Expression → String
  | .numberLiteral n => toString n
  | .stringLiteral s => "\x22" ++ s ++ "\x22"
  | .booleanLiteral b => if b then "true" else "false"
  | .identifier name => convert_name name
  | .arrayLiteral elements => "vec![" ++ String.intercalate ", " (genList elements) ++ "]"
  | .structLiteral name fields =>
      name ++ " \x7b " ++ String.intercalate ", " (genFields fields) ++ " \x7d"
  | .binaryOp l op r =>
      match op with
      | .add =>
          genAddCombine (isStringLitE l || isStringLitE r) (genParts l ++ genParts r)
            (genExpr l) (genExpr r)
      | _ => genExpr l ++ " " ++ emitBinaryOpStr op ++ " " ++ genExpr r
  | .functionCall name args =>
      to_snake_case name ++ "(" ++ String.intercalate ", " (genCallArgs args) ++ ")"
  | .methodCall obj m args => genMethodCallStr (genExpr obj) m (genList args)
  | .indexAccess obj idx => genExpr obj ++ "[" ++ genExpr idx ++ " as usize]"
  | .memberAccess obj member =>
      genExpr obj ++ "." ++ (if member = "length" then "len() as i32" else member)
termination_by e => (sizeOf e, 0)

/-- Fused `collect_string_parts` + per-part generation: one generated string
per collected operand.  In the non-flattened `+` case (`parts.push(expr)`
on a `+` with no immediate string operand) the later
`generate_expression(part)` necessarily takes the numeric-addition branch,
which is inlined here; `genParts_eq` proves agreement with
`collectStringParts`. -/
def genParts : Expression → List String
  | .binaryOp l .add r =>
      if isStringLitE l || isStringLitE r then genParts l ++ genParts r
      else [genExpr l ++ " + " ++ genExpr r]
  | e => [genExpr e]
termination_by e => (sizeOf e, 1)

/-- Element-wise generation of an expression list (array elements, method
arguments). -/
def genList : List Expression → List String
  | [] => []
  | e :: es => genExpr e :: genList es
termination_by es => (sizeOf es, 0)

/-- Argument generation for `Expression::FunctionCall`: string-literal
arguments get an ownership conversion appended. -/
def genCallArgs : List Expression → List String
  | [] => []
  | a :: rest =>
      (if isStringLitE a then genExpr a ++ ".to_string()" else genExpr a) :: genCallArgs rest
termination_by l => (sizeOf l, 0)

/-- Field generation for `Expression::StructLiteral`. -/
def genFields : List (String × Expression) → List String
  | [] => []
  | (fname, fval) :: rest => (fname ++ ": " ++ genExpr fval) :: genFields rest
termination_by l => (sizeOf l, 0)

end

/-- Four spaces per indentation level (`Codegen::emit_indent`). -/
def indentOf (n : Nat) : String :=
  String.join (List.replicate n "    ")

/-- Rust `str::replace("/", "::")` on the import path. -/
def replaceSlashL : List Char → List Char
  | [] => []
  | '/' :: rest => ':' :: ':' :: replaceSlashL rest
  | ch :: rest => ch :: replaceSlashL rest

/-- Rust `str::trim_start_matches("./")` (strips every leading repetition). -/
def stripDotSlashAll : List Char → List Char
  | '.' :: '/' :: rest => stripDotSlashAll rest
  | l => l

/-- One `name [as alias]` import item as emitted. -/
def importItemStr (it : String × Option String) : String :=
  convert_name it.1 ++ (match it.2 with | some a => " as " ++ convert_name a | none => "")

/-- Embedding of `Codegen::generate_import_stmt` (factored into a pure
function; `path.replace("::", "::")` in the source is the identity and is
dropped). -/
def genImportStr (isMain : Bool) (imports : List (String × Option String))
    (path : String) (isExternal : Bool) : String :=
  "use " ++
  (if isExternal then
    if imports.length = 1 then
      match imports with
      | (n, none) :: _ => path ++ "::" ++ convert_name n
      | (n, some a) :: _ => path ++ "::" ++ convert_name n ++ " as " ++ convert_name a
      | [] => path
    else
      path ++ "::\x7b" ++ String.intercalate ", " (imports.map importItemStr) ++ "\x7d"
  else
    let p2 :=
      if path.startsWith "./" then
        let mp : String := ⟨replaceSlashL (stripDotSlashAll path.data)⟩
        if isMain then mp else "super::" ++ mp
      else ⟨replaceSlashL path.data⟩
    if imports.length = 1 then
      match imports with
      | it :: _ => p2 ++ "::" ++ importItemStr it
      | [] => p2
    else
      p2 ++ "::\x7b" ++ String.intercalate ", " (imports.map importItemStr) ++ "\x7d") ++
  ";\n"

/-- Parameter list text of a function declaration. -/
def genParamsStr (params : List (String × Ty)) : String :=
  String.intercalate ", " (params.map fun p => to_snake_case p.1 ++ ": " ++ emitTy p.2)

/-- One enum variant line as emitted by the exported-enum path (which skips
the parentheses when the associated-type list is empty). -/
def enumVariantStrExport (ind : Nat) (v : String × Option (List Ty)) : String :=
  indentOf (ind + 1) ++ v.1 ++
  (match v.2 with
    | some fs =>
        if fs.isEmpty then ""
        else "(" ++ String.intercalate ", " (fs.map emitTy) ++ ")"
    | none => "") ++ ",\n"

/-- One enum variant line as emitted by the plain-enum path (parentheses are
emitted whenever an associated-type list is present, even empty). -/
def enumVariantStr (ind : Nat) (v : String × Option (List Ty)) : String :=
  indentOf (ind + 1) ++ v.1 ++
  (match v.2 with
    | some fs => "(" ++ String.intercalate ", " (fs.map emitTy) ++ ")"
    | none => "") ++ ",\n"

mutual

/-- Embedding of `Codegen::generate_statement` as a pure function of the
entry-unit flag, the indentation level and the statement (each statement
generator restores the indentation it changes, so the level is a plain
parameter). -/
def genStatement (isMain : Bool) (ind : Nat) : Statement → String
  | .importStmt imports path isExternal => genImportStr isMain imports path isExternal
  | .exportStmt inner => genExportStmt isMain ind inner
  | .variableDecl name varType value isConst =>
      indentOf ind ++
      (if isConst then
        "const " ++ toUpperStr name ++ ": " ++
        (match varType with
          | some t => if t == Ty.string then "&str" else emitTy t
          | none =>
            match value with
            | .numberLiteral _ => "i32"
            | .stringLiteral _ => "&str"
            | .booleanLiteral _ => "bool"
            | _ => "i32")
      else
        "let mut " ++ to_snake_case name ++
        (match varType with | some t => ": " ++ emitTy t | none => "")) ++
      " = " ++
      (let needsToString := !isConst &&
        (match varType with
          | some t => isStringLitE value && (t == Ty.string || t == Ty.any)
          | none => isStringLitE value)
      let isStaticArray :=
        match varType with
        | some (.array _ (some _)) => isArrayLitE value
        | _ => false
      if needsToString then genExpr value ++ ".to_string()"
      else if isStaticArray then
        match value with
        | .arrayLiteral elements => "[" ++ String.intercalate ", " (genList elements) ++ "]"
        | _ => ""
      else genExpr value) ++ ";\n"
  | .functionDecl name params retTy body =>
      indentOf ind ++ "fn " ++ (if name = "main" then "main" else to_snake_case name) ++
      "(" ++ genParamsStr params ++ ") " ++
      (if retTy ≠ Ty.void then "-> " ++ emitTy retTy ++ " " else "") ++
      "\x7b\n" ++ genStmtList isMain (ind + 1) body ++ indentOf ind ++ "\x7d\n\n"
  | .structDecl name fields =>
      indentOf ind ++ "#[derive(Debug, Clone)]\n" ++ indentOf ind ++ "struct " ++ name ++
      " \x7b\n" ++
      String.join (fields.map fun f => indentOf (ind + 1) ++ f.1 ++ ": " ++ emitTy f.2 ++ ",\n") ++
      indentOf ind ++ "\x7d\n\n"
  | .enumDecl name variants =>
      indentOf ind ++ "#[derive(Debug, Clone, PartialEq)]\n" ++ indentOf ind ++ "enum " ++
      name ++ " \x7b\n" ++
      String.join (variants.map (enumVariantStr ind)) ++
      indentOf ind ++ "\x7d\n\n"
  | .printStmt e =>
      indentOf ind ++ "println!(\x22\x7b\x7d\x22" ++ ", " ++ genExpr e ++ ");\n"
  | .returnStmt value =>
      indentOf ind ++ "return " ++ (match value with | some e => genExpr e | none => "") ++ ";\n"
  | .expressionStmt e => indentOf ind ++ genExpr e ++ ";\n"
  | .ifElse cond thenBody elseBody =>
      indentOf ind ++ "if " ++ genExpr cond ++ " \x7b\n" ++
      genStmtList isMain (ind + 1) thenBody ++ indentOf ind ++
      (match elseBody with
        | some b =>
            "\x7d else \x7b\n" ++ genStmtList isMain (ind + 1) b ++ indentOf ind ++ "\x7d\n"
        | none => "\x7d\n")
  | .forLoop varName iter body =>
      indentOf ind ++ "for " ++ varName ++ " in " ++ genExpr iter ++ " \x7b\n" ++
      genStmtList isMain (ind + 1) body ++ indentOf ind ++ "\x7d\n"
  | .whileLoop cond body =>
      indentOf ind ++ "while " ++ genExpr cond ++ " \x7b\n" ++
      genStmtList isMain (ind + 1) body ++ indentOf ind ++ "\x7d\n"
  | .breakStmt => indentOf ind ++ "break;\n"
  | .continueStmt => indentOf ind ++ "continue;\n"
  | .tryCatch tryBody catchParam catchBody =>
      indentOf ind ++ "match (|| -> Result<(), Box<dyn std::error::Error>> \x7b\n" ++
      genStmtList isMain (ind + 1) tryBody ++
      indentOf (ind + 1) ++ "Ok(())\n" ++
      indentOf ind ++ "\x7d)() \x7b\n" ++
      indentOf (ind + 1) ++ "Ok(_) => \x7b\x7d,\n" ++
      indentOf (ind + 1) ++ "Err(" ++
      (match catchParam with | some p => p | none => "_err") ++ ") => \x7b\n" ++
      genStmtList isMain (ind + 2) catchBody ++
      indentOf (ind + 1) ++ "\x7d\n" ++
      indentOf ind ++ "\x7d\n"
  | .throwStmt e =>
      indentOf ind ++ "panic!(\x22\x7b\x7d\x22" ++ ", " ++ genExpr e ++ ");\n"
termination_by s => sizeOf s

/-- Embedding of `Codegen::generate_export_stmt` (the `_ => ()` fallback of
the source emits nothing). -/
def genExportStmt (isMain : Bool) (ind : Nat) : Statement → String
  | .functionDecl name params retTy body =>
      indentOf ind ++ "pub " ++ "fn " ++ to_snake_case name ++ "(" ++ genParamsStr params ++
      ")" ++
      (if retTy ≠ Ty.void then " -> " ++ emitTy retTy else "") ++
      " \x7b\n" ++ genStmtList isMain (ind + 1) body ++ indentOf ind ++ "\x7d\n\n"
  | .structDecl name fields =>
      indentOf ind ++ "#[derive(Debug, Clone)]\n" ++ indentOf ind ++ "pub struct " ++ name ++
      " \x7b\n" ++
      String.join
        (fields.map fun f => indentOf (ind + 1) ++ "pub " ++ f.1 ++ ": " ++ emitTy f.2 ++ ",\n") ++
      indentOf ind ++ "\x7d\n\n"
  | .enumDecl name variants =>
      indentOf ind ++ "#[derive(Debug, Clone, PartialEq)]\n" ++ indentOf ind ++ "pub enum " ++
      name ++ " \x7b\n" ++
      String.join (variants.map (enumVariantStrExport ind)) ++
      indentOf ind ++ "\x7d\n\n"
  | .variableDecl name varType value isConst =>
      indentOf ind ++ "pub " ++
      (if isConst then "const " ++ toUpperStr name else "static mut " ++ name) ++
      (match varType with
        | some t => ": " ++ (if isConst && t == Ty.string then "&str" else emitTy t)
        | none => "") ++
      " = " ++ genExpr value ++ ";\n"
  | _ => ""
termination_by s => sizeOf s

/-- Statement-sequence emission (the `for statement in …` loops). -/
def genStmtList (isMain : Bool) (ind : Nat) : List Statement → String
  | [] => ""
  | s :: rest => genStatement isMain ind s ++ genStmtList isMain ind rest
termination_by l => sizeOf l

end

/-- The `has_main` scan of `Codegen::generate`. -/
def hasMainFn (p : Program) : Bool :=
  p.statements.any fun s =>
    match s with
    | .functionDecl n _ _ _ => n == "main"
    | _ => false

/-- Embedding of `Codegen::generate`: `isMain` is true for `Codegen::new`
(entry unit) and false for `Codegen::new_module` (dependent module);
`emit_header` opens the synthesized `main` and sets the indentation to one,
`emit_main_if_needed` closes it. -/
def generate (isMain : Bool) (p : Program) : String :=
  if isMain && !hasMainFn p then
    "fn main() \x7b\n" ++ genStmtList isMain 1 p.statements ++ "\x7d\n"
  else genStmtList isMain 0 p.statements

/-- The method names of the codegen translation table (the named branches of
the `match method.as_str()` in `generate_expression`). -/
def knownMethodNames : List String :=
  ["push", "pop", "shift", "unshift", "slice", "map", "filter", "charAt",
   "substring", "indexOf", "toUpperCase", "toLowerCase", "trim", "split",
   "join", "reverse", "sort", "includes", "contains"]

/-- The token sequence ends with an end-of-stream token. -/
def endsWithEof (T : List Token) : Bool :=
  match T.getLast? with
  | some t => t.kind == .eof
  | none => false

/-- The lookahead class of `is_struct_literal_ahead`: identifier or `\x7d`. -/
def isIdentOrRBraceK : TokenKind → Bool
  | .ident _ => true
  | .rightBrace => true
  | _ => false

/-! ## Theorems -/

theorem charOfNat_toNat (n : Nat) (h : n < 0xd800) : (Char.ofNat n).toNat = n := by
  have hv : n.isValidChar := Or.inl h
  rw [Char.ofNat, dif_pos hv]
  simp [Char.ofNatAux, Char.toNat, UInt32.toNat, BitVec.ofNatLt]

theorem charIsUpper_iff (c : Char) : c.isUpper = true ↔ 65 ≤ c.toNat ∧ c.toNat ≤ 90 := by
  simp [Char.isUpper, Char.toNat, UInt32.le_def, BitVec.le_def, UInt32.toNat]

theorem charIsDigit_iff (c : Char) : c.isDigit = true ↔ 48 ≤ c.toNat ∧ c.toNat ≤ 57 := by
  simp [Char.isDigit, Char.toNat, UInt32.le_def, BitVec.le_def, UInt32.toNat]

theorem charUpperToLower (c : Char) (h : c.isUpper = true) : (c.toLower).isUpper = false := by
  rw [charIsUpper_iff] at h
  rw [Char.toLower, if_pos ⟨h.1, h.2⟩]
  have h2 : (Char.ofNat (c.toNat + 32)).toNat = c.toNat + 32 := charOfNat_toNat _ (by omega)
  by_contra hc
  simp only [Bool.not_eq_false] at hc
  rw [charIsUpper_iff, h2] at hc
  omega

theorem charFixToUpper (c : Char) (h : c.isUpper = true ∨ c = '_' ∨ c.isDigit = true) :
    c.toUpper = c := by
  rw [Char.toUpper]
  have hn : ¬(97 ≤ c.toNat ∧ c.toNat ≤ 122) := by
    rcases h with h | h | h
    · rw [charIsUpper_iff] at h; omega
    · subst h; decide
    · rw [charIsDigit_iff] at h; omega
  rw [if_neg hn]

theorem toSnakeAux_no_upper (l : List Char) (b : Bool) (acc : List Char)
    (hacc : ∀ c ∈ acc, c.isUpper = false) :
    ∀ c ∈ toSnakeAux l b acc, c.isUpper = false := by
  induction l generalizing b acc with
  | nil => simpa [toSnakeAux] using hacc
  | cons ch rest ih =>
      simp only [toSnakeAux]
      by_cases hu : ch.isUpper = true
      · rw [if_pos hu]
        apply ih
        intro c hc
        rcases List.mem_append.1 hc with hc | hc
        · split at hc
          · split at hc
            · rcases List.mem_append.1 hc with hc | hc
              · exact hacc c hc
              · simp only [List.mem_singleton] at hc; subst hc; decide
            · exact hacc c hc
          · exact hacc c hc
        · simp only [List.mem_singleton] at hc
          subst hc
          exact charUpperToLower ch hu
      · rw [if_neg hu]
        apply ih
        intro c hc
        rcases List.mem_append.1 hc with hc | hc
        · exact hacc c hc
        · simp only [List.mem_singleton] at hc
          subst hc
          exact Bool.of_not_eq_true hu

theorem toSnakeAux_id (l : List Char) (b : Bool) (acc : List Char)
    (hl : ∀ c ∈ l, c.isUpper = false) : toSnakeAux l b acc = acc ++ l := by
  induction l generalizing b acc with
  | nil => simp [toSnakeAux]
  | cons ch rest ih =>
      simp only [toSnakeAux]
      have hu : ¬(ch.isUpper = true) := by
        have := hl ch (List.mem_cons_self _ _)
        simp [this]
      rw [if_neg hu]
      rw [ih _ _ (fun c hc => hl c (List.mem_cons_of_mem _ hc))]
      simp

theorem mapToUpper_fixed (l : List Char)
    (h : ∀ c ∈ l, (c.isUpper || decide (c = '_') || c.isDigit) = true) :
    l.map Char.toUpper = l := by
  induction l with
  | nil => rfl
  | cons ch rest ih =>
      have h1 := h ch (List.mem_cons_self _ _)
      simp only [Bool.or_eq_true, decide_eq_true_eq] at h1
      simp only [List.map_cons]
      rw [charFixToUpper ch (by tauto), ih (fun c hc => h c (List.mem_cons_of_mem _ hc))]

theorem toUpperStr_fixed (s : String)
    (h : s.data.all (fun c => c.isUpper || decide (c = '_') || c.isDigit) = true) :
    toUpperStr s = s := by
  unfold toUpperStr
  rw [mapToUpper_fixed s.data (List.all_eq_true.1 h)]

theorem to_snake_case_fixed (t : String) (ht : ∀ c ∈ t.data, c.isUpper = false) :
    to_snake_case t = t := by
  unfold to_snake_case
  rw [toSnakeAux_id _ _ _ ht]
  cases t
  simp

theorem to_snake_case_no_upper (s : String) :
    ∀ c ∈ (to_snake_case s).data, c.isUpper = false := by
  unfold to_snake_case
  exact toSnakeAux_no_upper s.data false [] (by simp)

/-- C8: identifier case conversion is idempotent:
`convert_name (convert_name s) = convert_name s` for every string. -/
theorem convert_name_idempotent (s : String) :
    convert_name (convert_name s) = convert_name s := by
  unfold convert_name
  by_cases h : s.data.all (fun c => c.isUpper || decide (c = '_') || c.isDigit) = true
  · rw [if_pos h]
    have hfix : toUpperStr s = s := toUpperStr_fixed s h
    rw [hfix, if_pos h, hfix]
  · rw [if_neg h]
    have hnu : ∀ c ∈ (to_snake_case s).data, c.isUpper = false := to_snake_case_no_upper s
    by_cases h2 :
        ((to_snake_case s).data.all (fun c => c.isUpper || decide (c = '_') || c.isDigit)) = true
    · rw [if_pos h2]
      exact toUpperStr_fixed _ h2
    · rw [if_neg h2]
      exact to_snake_case_fixed _ hnu

theorem skipWsAux_length (b : Bool) (l : List Char) (ln col : Nat) :
    (skipWsAux b l ln col).1.length ≤ l.length := by
  induction b, l, ln, col using skipWsAux.induct <;> simp_all [skipWsAux] <;> omega

theorem readString_spec_aux (n : Nat) :
    ∀ (l acc : List Char) (ln c0 col : Nat) (t : Token) (l2 : List Char) (ln2 col2 : Nat),
      l.length ≤ n → readString l acc ln c0 col = .ok (t, l2, ln2, col2) →
      l2.length < l.length ∧ ∃ s, t.kind = .stringLit s := by
  induction n with
  | zero =>
      intro l acc ln c0 col t l2 ln2 col2 hlen h
      have hl : l = [] := List.length_eq_zero.1 (Nat.le_zero.1 hlen)
      rw [hl] at h
      simp [readString] at h
  | succ n ih =>
      intro l acc ln c0 col t l2 ln2 col2 hlen h
      match l with
      | [] => simp [readString] at h
      | ch :: rest =>
          rw [readString] at h
          by_cases h1 : ch = '\\'
          · rw [if_pos h1] at h
            match rest with
            | [] => simp [readEscape] at h
            | e :: rest2 =>
                rw [readEscape] at h
                have hr2 : rest2.length ≤ n := by
                  simp only [List.length_cons] at hlen; omega
                have := ih rest2 _ ln c0 (col + 2) t l2 ln2 col2 hr2 h
                refine ⟨?_, this.2⟩
                simp only [List.length_cons]
                omega
          · rw [if_neg h1] at h
            by_cases h2 : ch = '"'
            · rw [if_pos h2] at h
              simp only [Except.ok.injEq, Prod.mk.injEq] at h
              obtain ⟨ht, hl2, -⟩ := h
              subst hl2
              refine ⟨by simp, ⟨⟨acc⟩, by rw [← ht]⟩⟩
            · rw [if_neg h2] at h
              have hr : rest.length ≤ n := by
                simp only [List.length_cons] at hlen; omega
              have := ih rest _ ln c0 (col + 1) t l2 ln2 col2 hr h
              refine ⟨?_, this.2⟩
              simp only [List.length_cons]
              omega

theorem readString_spec (l acc : List Char) (ln c0 col : Nat) (t : Token)
    (l2 : List Char) (ln2 col2 : Nat)
    (h : readString l acc ln c0 col = .ok (t, l2, ln2, col2)) :
    l2.length < l.length ∧ ∃ s, t.kind = .stringLit s :=
  readString_spec_aux l.length l acc ln c0 col t l2 ln2 col2 le_rfl h

theorem twoCharOp_spec (one two : TokenKind) (second : Char) (rest : List Char)
    (ln col : Nat) (t : Token) (l2 : List Char) (ln2 col2 : Nat)
    (h : twoCharOp one two second rest ln col = .ok (t, l2, ln2, col2)) :
    l2.length ≤ rest.length ∧ (t.kind = one ∨ t.kind = two) := by
  match rest with
  | [] =>
      simp only [twoCharOp, Except.ok.injEq, Prod.mk.injEq] at h
      obtain ⟨ht, hl2, -⟩ := h
      subst hl2; subst ht
      simp
  | c2 :: rest2 =>
      simp only [twoCharOp] at h
      split at h <;>
        · simp only [Except.ok.injEq, Prod.mk.injEq] at h
          obtain ⟨ht, hl2, -⟩ := h
          subst hl2; subst ht
          simp

theorem pipeOp_spec (rest : List Char) (ln col : Nat) (t : Token) (l2 : List Char)
    (ln2 col2 : Nat) (h : pipeOp rest ln col = .ok (t, l2, ln2, col2)) :
    l2.length ≤ rest.length ∧ t.kind = .pipePipe := by
  match rest with
  | [] => simp [pipeOp] at h
  | c2 :: rest2 =>
      simp only [pipeOp] at h
      split at h
      · simp only [Except.ok.injEq, Prod.mk.injEq] at h
        obtain ⟨ht, hl2, -⟩ := h
        subst hl2; subst ht
        simp
      · simp at h

theorem readNumber_spec (l : List Char) (ln col : Nat) (t : Token) (l2 : List Char)
    (ln2 col2 : Nat) (h : readNumber l ln col = .ok (t, l2, ln2, col2)) :
    l2 = l.dropWhile (fun c => c.isDigit) ∧ ∃ n, t.kind = .numberLit n := by
  simp only [readNumber] at h
  split at h
  · simp only [Except.ok.injEq, Prod.mk.injEq] at h
    obtain ⟨ht, hl2, -⟩ := h
    subst hl2; subst ht
    exact ⟨rfl, ⟨_, rfl⟩⟩
  · simp at h

theorem keywordKind_ne_eof (s : String) : keywordKind s ≠ .eof := by
  unfold keywordKind
  repeat' split
  all_goals simp

theorem readIdent_spec (l : List Char) (ln col : Nat) (t : Token) (l2 : List Char)
    (ln2 col2 : Nat) (h : readIdent l ln col = .ok (t, l2, ln2, col2)) :
    l2 = l.dropWhile (fun c => c.isAlphanum || decide (c = '_')) ∧ t.kind ≠ .eof := by
  simp only [readIdent] at h
  simp only [Except.ok.injEq, Prod.mk.injEq] at h
  obtain ⟨ht, hl2, -⟩ := h
  subst hl2; subst ht
  exact ⟨rfl, keywordKind_ne_eof _⟩

theorem lexOkArm (k : TokenKind) (rest : List Char) (ln col a b : Nat) (t : Token)
    (l2 : List Char) (ln2 col2 : Nat) (hk : k ≠ TokenKind.eof)
    (h : (Except.ok (⟨k, ln, col⟩, rest, a, b) :
        Except String (Token × List Char × Nat × Nat)) = .ok (t, l2, ln2, col2)) :
    l2.length ≤ rest.length ∧ t.kind ≠ .eof := by
  simp only [Except.ok.injEq, Prod.mk.injEq] at h
  obtain ⟨ht, hl2, -⟩ := h
  subst hl2; subst ht
  exact ⟨le_rfl, hk⟩

theorem nextTokenCore_spec (ch : Char) (rest : List Char) (ln col : Nat) (t : Token)
    (l2 : List Char) (ln2 col2 : Nat)
    (h : nextTokenCore ch rest ln col = .ok (t, l2, ln2, col2)) :
    l2.length ≤ rest.length ∧ t.kind ≠ .eof := by
  unfold nextTokenCore at h
  by_cases c1 : ch = '+'
  · rw [if_pos c1] at h
    exact lexOkArm _ _ _ _ _ _ _ _ _ _ (by simp) h
  rw [if_neg c1] at h
  by_cases c2 : ch = '-'
  · rw [if_pos c2] at h
    exact lexOkArm _ _ _ _ _ _ _ _ _ _ (by simp) h
  rw [if_neg c2] at h
  by_cases c3 : ch = '*'
  · rw [if_pos c3] at h
    exact lexOkArm _ _ _ _ _ _ _ _ _ _ (by simp) h
  rw [if_neg c3] at h
  by_cases c4 : ch = '/'
  · rw [if_pos c4] at h
    exact lexOkArm _ _ _ _ _ _ _ _ _ _ (by simp) h
  rw [if_neg c4] at h
  by_cases c5 : ch = '%'
  · rw [if_pos c5] at h
    exact lexOkArm _ _ _ _ _ _ _ _ _ _ (by simp) h
  rw [if_neg c5] at h
  by_cases c6 : ch = ':'
  · rw [if_pos c6] at h
    exact lexOkArm _ _ _ _ _ _ _ _ _ _ (by simp) h
  rw [if_neg c6] at h
  by_cases c7 : ch = ';'
  · rw [if_pos c7] at h
    exact lexOkArm _ _ _ _ _ _ _ _ _ _ (by simp) h
  rw [if_neg c7] at h
  by_cases c8 : ch = ','
  · rw [if_pos c8] at h
    exact lexOkArm _ _ _ _ _ _ _ _ _ _ (by simp) h
  rw [if_neg c8] at h
  by_cases c9 : ch = '.'
  · rw [if_pos c9] at h
    exact lexOkArm _ _ _ _ _ _ _ _ _ _ (by simp) h
  rw [if_neg c9] at h
  by_cases c10 : ch = '('
  · rw [if_pos c10] at h
    exact lexOkArm _ _ _ _ _ _ _ _ _ _ (by simp) h
  rw [if_neg c10] at h
  by_cases c11 : ch = ')'
  · rw [if_pos c11] at h
    exact lexOkArm _ _ _ _ _ _ _ _ _ _ (by simp) h
  rw [if_neg c11] at h
  by_cases c12 : ch = '\x7b'
  · rw [if_pos c12] at h
    exact lexOkArm _ _ _ _ _ _ _ _ _ _ (by simp) h
  rw [if_neg c12] at h
  by_cases c13 : ch = '\x7d'
  · rw [if_pos c13] at h
    exact lexOkArm _ _ _ _ _ _ _ _ _ _ (by simp) h
  rw [if_neg c13] at h
  by_cases c14 : ch = '&'
  · rw [if_pos c14] at h
    obtain ⟨hlen, hkind⟩ := twoCharOp_spec _ _ _ _ _ _ _ _ _ _ h
    refine ⟨hlen, ?_⟩
    rcases hkind with hk | hk <;> (rw [hk]; simp)
  rw [if_neg c14] at h
  by_cases c15 : ch = '|'
  · rw [if_pos c15] at h
    obtain ⟨hlen, hkind⟩ := pipeOp_spec _ _ _ _ _ _ _ h
    exact ⟨hlen, by rw [hkind]; simp⟩
  rw [if_neg c15] at h
  by_cases c16 : ch = '!'
  · rw [if_pos c16] at h
    obtain ⟨hlen, hkind⟩ := twoCharOp_spec _ _ _ _ _ _ _ _ _ _ h
    refine ⟨hlen, ?_⟩
    rcases hkind with hk | hk <;> (rw [hk]; simp)
  rw [if_neg c16] at h
  by_cases c17 : ch = '='
  · rw [if_pos c17] at h
    obtain ⟨hlen, hkind⟩ := twoCharOp_spec _ _ _ _ _ _ _ _ _ _ h
    refine ⟨hlen, ?_⟩
    rcases hkind with hk | hk <;> (rw [hk]; simp)
  rw [if_neg c17] at h
  by_cases c18 : ch = '>'
  · rw [if_pos c18] at h
    obtain ⟨hlen, hkind⟩ := twoCharOp_spec _ _ _ _ _ _ _ _ _ _ h
    refine ⟨hlen, ?_⟩
    rcases hkind with hk | hk <;> (rw [hk]; simp)
  rw [if_neg c18] at h
  by_cases c19 : ch = '<'
  · rw [if_pos c19] at h
    obtain ⟨hlen, hkind⟩ := twoCharOp_spec _ _ _ _ _ _ _ _ _ _ h
    refine ⟨hlen, ?_⟩
    rcases hkind with hk | hk <;> (rw [hk]; simp)
  rw [if_neg c19] at h
  by_cases c20 : ch = '"'
  · rw [if_pos c20] at h
    obtain ⟨hlen, s, hkind⟩ := readString_spec _ _ _ _ _ _ _ _ _ h
    exact ⟨Nat.le_of_lt hlen, by rw [hkind]; simp⟩
  rw [if_neg c20] at h
  by_cases c21 : ch.isDigit = true
  · rw [if_pos c21] at h
    obtain ⟨hl2, n, hkind⟩ := readNumber_spec _ _ _ _ _ _ _ h
    refine ⟨?_, by rw [hkind]; simp⟩
    rw [hl2, List.dropWhile_cons_of_pos c21]
    exact (List.dropWhile_sublist _).length_le
  rw [if_neg c21] at h
  by_cases c22 : (ch.isAlpha || decide (ch = '_')) = true
  · rw [if_pos c22] at h
    obtain ⟨hl2, hkind⟩ := readIdent_spec _ _ _ _ _ _ _ h
    refine ⟨?_, hkind⟩
    rw [hl2, List.dropWhile_cons_of_pos ?hp]
    · exact (List.dropWhile_sublist _).length_le
    · case hp =>
        simp only [Bool.or_eq_true, decide_eq_true_eq] at c22 ⊢
        rcases c22 with ha | ha
        · left
          unfold Char.isAlphanum
          rw [ha]
          rfl
        · right; exact ha
  rw [if_neg c22] at h
  simp at h

theorem nextToken_spec (l : List Char) (ln col : Nat) (t : Token) (l2 : List Char)
    (ln2 col2 : Nat) (h : nextToken l ln col = .ok (t, l2, ln2, col2)) :
    l2.length < l.length ∧ t.kind ≠ .eof := by
  match l with
  | [] => simp [nextToken] at h
  | ch :: rest =>
      rw [nextToken] at h
      obtain ⟨hlen, hkind⟩ := nextTokenCore_spec _ _ _ _ _ _ _ _ h
      refine ⟨?_, hkind⟩
      simp only [List.length_cons]
      omega

theorem tokenizeLoop_ne_outOfFuel (fuel : Nat) :
    ∀ (l : List Char) (ln col : Nat), l.length < fuel →
      tokenizeLoop fuel l ln col ≠ .error .outOfFuel := by
  induction fuel with
  | zero => intro l ln col hlen; omega
  | succ fuel ih =>
      intro l ln col hlen
      rw [tokenizeLoop]
      rcases hsk : skipWsAux false l ln col with ⟨l1, ln1, col1⟩
      have hlen1 : l1.length ≤ l.length := by
        have := skipWsAux_length false l ln col
        rw [hsk] at this
        exact this
      show (if l1.isEmpty = true then
              (Except.ok [⟨.eof, ln1, col1⟩] : Except LexFail (List Token))
            else
              match nextToken l1 ln1 col1 with
              | .error e => .error (.lexErr e)
              | .ok (t, l2, ln2, col2) =>
                  match tokenizeLoop fuel l2 ln2 col2 with
                  | .error e => .error e
                  | .ok ts => .ok (t :: ts)) ≠ .error .outOfFuel
      by_cases he : l1.isEmpty
      · rw [if_pos he]
        simp
      · rw [if_neg he]
        split
        · simp
        · rename_i t l2 ln2 col2 hnt
          obtain ⟨hl2, -⟩ := nextToken_spec _ _ _ _ _ _ _ hnt
          have hlen2 : l2.length < fuel := by omega
          split
          · rename_i e2 hrec
            intro heq
            apply ih l2 ln2 col2 hlen2
            rw [hrec]
            simp only [Except.error.injEq] at heq
            rw [heq]
          · simp

theorem tokenizeLoop_shape (fuel : Nat) :
    ∀ (l : List Char) (ln col : Nat) (toks : List Token),
      tokenizeLoop fuel l ln col = .ok toks →
      ∃ ts t, toks = ts ++ [t] ∧ t.kind = .eof ∧ ∀ u ∈ ts, u.kind ≠ .eof := by
  induction fuel with
  | zero => intro l ln col toks h; simp [tokenizeLoop] at h
  | succ fuel ih =>
      intro l ln col toks h
      rw [tokenizeLoop] at h
      rcases hsk : skipWsAux false l ln col with ⟨l1, ln1, col1⟩
      rw [hsk] at h
      rw [show (match (l1, ln1, col1) with
            | (l1, ln1, col1) =>
              if l1.isEmpty = true then
                (Except.ok [⟨.eof, ln1, col1⟩] : Except LexFail (List Token))
              else
                match nextToken l1 ln1 col1 with
                | .error e => .error (.lexErr e)
                | .ok (t, l2, ln2, col2) =>
                    match tokenizeLoop fuel l2 ln2 col2 with
                    | .error e => .error e
                    | .ok ts => .ok (t :: ts)) =
          (if l1.isEmpty = true then
              (Except.ok [⟨.eof, ln1, col1⟩] : Except LexFail (List Token))
            else
              match nextToken l1 ln1 col1 with
              | .error e => .error (.lexErr e)
              | .ok (t, l2, ln2, col2) =>
                  match tokenizeLoop fuel l2 ln2 col2 with
                  | .error e => .error e
                  | .ok ts => .ok (t :: ts)) from rfl] at h
      by_cases he : l1.isEmpty
      · rw [if_pos he] at h
        simp only [Except.ok.injEq] at h
        subst h
        exact ⟨[], ⟨.eof, ln1, col1⟩, rfl, rfl, by simp⟩
      · rw [if_neg he] at h
        split at h
        · simp at h
        · rename_i t l2 ln2 col2 hnt
          obtain ⟨-, hkind⟩ := nextToken_spec _ _ _ _ _ _ _ hnt
          split at h
          · simp at h
          · rename_i ts0 hrec
            simp only [Except.ok.injEq] at h
            subst h
            obtain ⟨ts, te, heq, hke, hall⟩ := ih _ _ _ _ hrec
            refine ⟨t :: ts, te, by rw [heq, List.cons_append], hke, ?_⟩
            intro u hu
            rcases List.mem_cons.1 hu with hu | hu
            · subst hu; exact hkind
            · exact hall u hu

/-- C1: for every input string, `tokenize` terminates (it is a total
function and its fuel sentinel is unreachable) and, whenever it does not
report a `LexError`, the token sequence it returns ends in exactly one
end-of-stream token: the `eof` token is the last element and no earlier
element is an `eof` token. -/
theorem tokenize_eof_terminated (input : List Char) :
    tokenize input ≠ .error .outOfFuel ∧
    ∀ toks, tokenize input = .ok toks →
      ∃ ts t, toks = ts ++ [t] ∧ t.kind = .eof ∧ ∀ u ∈ ts, u.kind ≠ .eof := by
  constructor
  · exact tokenizeLoop_ne_outOfFuel _ input 1 1 (Nat.lt_succ_self _)
  · intro toks h
    exact tokenizeLoop_shape _ input 1 1 toks h

theorem tokenize_eof_terminated_witness :
    tokenize "let x = 1;".data =
      .ok [⟨.kLet, 1, 1⟩, ⟨.ident "x", 1, 5⟩, ⟨.equal, 1, 7⟩, ⟨.numberLit 1, 1, 9⟩,
        ⟨.semicolon, 1, 10⟩, ⟨.eof, 1, 11⟩] ∧
    ∃ ts t,
      ([⟨.kLet, 1, 1⟩, ⟨.ident "x", 1, 5⟩, ⟨.equal, 1, 7⟩, ⟨.numberLit 1, 1, 9⟩,
        ⟨.semicolon, 1, 10⟩, ⟨.eof, 1, 11⟩] : List Token) = ts ++ [t] ∧
      t.kind = .eof ∧ ∀ u ∈ ts, u.kind ≠ .eof :=
  ⟨rfl, (tokenize_eof_terminated "let x = 1;".data).2 _ rfl⟩

/-- C2 (code bug): the checked-in lexer keyword table stops at the
declaration keywords; the control-flow words, `true`/`false` and the other
keywords demanded by the spec, by lexer_tests.rs
(`test_lexer_break_keyword`, `test_lexer_if_else_keywords`, …) and by the
parser all lex as plain identifier tokens instead. -/
theorem lexer_keyword_table_stale :
    tokenize "break".data = .ok [⟨.ident "break", 1, 1⟩, ⟨.eof, 1, 6⟩] ∧
    tokenize "if".data = .ok [⟨.ident "if", 1, 1⟩, ⟨.eof, 1, 3⟩] ∧
    tokenize "true".data = .ok [⟨.ident "true", 1, 1⟩, ⟨.eof, 1, 5⟩] ∧
    tokenize "struct".data = .ok [⟨.ident "struct", 1, 1⟩, ⟨.eof, 1, 7⟩] :=
  ⟨rfl, rfl, rfl, rfl⟩

/-- C3 (code bug): the checked-in lexer has no `[` arm, so both array
declarations of the claim die in the lexer with an unexpected-character
error (its own test `test_lexer_array_brackets` expects `LeftBracket`
tokens); the tokenize–parse–generate pipeline cannot succeed on them. -/
theorem lexer_rejects_array_syntax :
    tokenize "let a: number[number, 3] = [1,2,3];".data =
      .error (.lexErr "Unexpected character [ at line 1, column 14") ∧
    tokenize "let b: number[] = [1,2,3];".data =
      .error (.lexErr "Unexpected character [ at line 1, column 14") :=
  ⟨rfl, rfl⟩

theorem genList_eq_map (es : List Expression) : genList es = es.map genExpr := by
  induction es with
  | nil => rw [genList]; rfl
  | cons e rest ih => rw [genList, ih]; rfl

theorem expr_strong_ind (motive : Expression → Prop)
    (h : ∀ e, (∀ e2, sizeOf e2 < sizeOf e → motive e2) → motive e) : ∀ e, motive e := by
  intro e
  generalize hn : sizeOf e = n
  induction n using Nat.strong_induction_on generalizing e with
  | _ n ih =>
      apply h
      intro e2 he2
      exact ih (sizeOf e2) (by omega) e2 rfl

theorem genParts_ne_nil : ∀ e, genParts e ≠ [] := by
  apply expr_strong_ind
  intro e ih
  cases e with
  | binaryOp l op r =>
      cases op <;> rw [genParts] <;> try simp
      split
      · simp only [ne_eq, List.append_eq_nil, not_and]
        intro hl
        exact absurd hl (ih l (by simp; omega))
      · simp
  | identifier name => rw [genParts] <;> simp
  | numberLiteral n => rw [genParts] <;> simp
  | stringLiteral s => rw [genParts] <;> simp
  | booleanLiteral b => rw [genParts] <;> simp
  | arrayLiteral es => rw [genParts] <;> simp
  | structLiteral n fs => rw [genParts] <;> simp
  | functionCall n args => rw [genParts] <;> simp
  | methodCall o m args => rw [genParts] <;> simp
  | indexAccess o i => rw [genParts] <;> simp
  | memberAccess o m => rw [genParts] <;> simp

theorem genParts_eq : ∀ e, genParts e = (collectStringParts e).map genExpr := by
  apply expr_strong_ind
  intro e ih
  cases e with
  | binaryOp l op r =>
      cases op <;> rw [genParts, collectStringParts] <;> try simp
      have ihl := ih l (by simp; try omega)
      have ihr := ih r (by simp; try omega)
      split
      · rw [List.map_append, ihl, ihr]
      · rename_i hcond
        simp only [List.map_cons, List.map_nil, List.cons.injEq, and_true]
        rw [genExpr.eq_7]
        rw [genAddCombine]
        rw [if_neg (by simpa using hcond)]
  | identifier name => rw [genParts, collectStringParts] <;> simp
  | numberLiteral n => rw [genParts, collectStringParts] <;> simp
  | stringLiteral s => rw [genParts, collectStringParts] <;> simp
  | booleanLiteral b => rw [genParts, collectStringParts] <;> simp
  | arrayLiteral es => rw [genParts, collectStringParts] <;> simp
  | structLiteral n fs => rw [genParts, collectStringParts] <;> simp
  | functionCall n args => rw [genParts, collectStringParts] <;> simp
  | methodCall o m args => rw [genParts, collectStringParts] <;> simp
  | indexAccess o i => rw [genParts, collectStringParts] <;> simp
  | memberAccess o m => rw [genParts, collectStringParts] <;> simp

/-- C5: a `+` with an immediate string-literal operand is emitted as a
single `format!` call with one `\x7b\x7d` slot per collected operand and the
generated operands in operand order (never as nested pairwise appends,
since the collected parts always number at least two); in particular
`print("a" + "b" + "c");` yields one `format!` with exactly three slots and
operands `"a"`, `"b"`, `"c"`. -/
theorem string_concat_folding :
    (∀ l r : Expression, (isStringLitE l || isStringLitE r) = true →
      genExpr (.binaryOp l .add r) =
        "format!(\x22" ++
          String.join
            (((collectStringParts l ++ collectStringParts r).map genExpr).map
              fun _ => "\x7b\x7d") ++
          "\x22, " ++
          String.intercalate ", " ((collectStringParts l ++ collectStringParts r).map genExpr)
            ++ ")") ∧
    genStatement true 1
        (.printStmt (.binaryOp (.binaryOp (.stringLiteral "a") .add (.stringLiteral "b"))
          .add (.stringLiteral "c"))) =
      "    println!(\x22\x7b\x7d\x22, format!(\x22\x7b\x7d\x7b\x7d\x7b\x7d\x22, \x22a\x22, \x22b\x22, \x22c\x22));\n" := by
  constructor
  · intro l r hl
    rw [genExpr.eq_7]
    unfold genAddCombine
    rw [if_pos hl]
    have h1 : genParts l ≠ [] := genParts_ne_nil l
    have h2 : genParts r ≠ [] := genParts_ne_nil r
    rw [if_pos (by
      simp only [List.length_append]
      have := List.length_pos.2 h1
      have := List.length_pos.2 h2
      omega)]
    rw [genParts_eq, genParts_eq, ← List.map_append]
  · simp only [genStatement, genExpr, genParts]
    rfl

theorem string_concat_folding_witness :
    (isStringLitE (.stringLiteral "a") || isStringLitE (.stringLiteral "b")) = true ∧
    genExpr (.binaryOp (.stringLiteral "a") .add (.stringLiteral "b")) =
      "format!(\x22\x7b\x7d\x7b\x7d\x22, \x22a\x22, \x22b\x22)" := by
  refine ⟨rfl, ?_⟩
  have h := string_concat_folding.1 (.stringLiteral "a") (.stringLiteral "b") rfl
  rw [h]
  simp only [collectStringParts, List.map_append, List.map_cons, List.map_nil, genExpr]
  rfl

/-- C6: in entry-unit mode (`Codegen::new`), a program with no top-level
function named `main` has its whole statement sequence emitted inside a
synthesized `fn main` wrapper at one indentation level; with a `main`
present the statements are emitted at top level with no wrapper; in
dependent-module mode (`Codegen::new_module`) no wrapper is ever added. -/
theorem entry_unit_main_wrapper (p : Program) :
    (hasMainFn p = false →
      generate true p = "fn main() \x7b\n" ++ genStmtList true 1 p.statements ++ "\x7d\n") ∧
    (hasMainFn p = true → generate true p = genStmtList true 0 p.statements) ∧
    generate false p = genStmtList false 0 p.statements := by
  refine ⟨?_, ?_, ?_⟩
  · intro h
    unfold generate
    rw [h]
    simp
  · intro h
    unfold generate
    rw [h]
    simp
  · unfold generate
    simp

theorem entry_unit_main_wrapper_witness :
    hasMainFn ⟨[.printStmt (.numberLiteral 1)]⟩ = false ∧
    generate true ⟨[.printStmt (.numberLiteral 1)]⟩ =
      "fn main() \x7b\n" ++ genStmtList true 1 [.printStmt (.numberLiteral 1)] ++ "\x7d\n" ∧
    hasMainFn ⟨[.functionDecl "main" [] .void []]⟩ = true ∧
    generate true ⟨[.functionDecl "main" [] .void []]⟩ =
      genStmtList true 0 [.functionDecl "main" [] .void []] :=
  ⟨rfl, (entry_unit_main_wrapper _).1 rfl, rfl, (entry_unit_main_wrapper _).2.1 rfl⟩

/-- C7: the generator is a total function into strings by construction
(`genExpr`, `genStatement` and `generate` have no error result), and AST
shapes outside its translation tables fall through to pass-through
emission: an unrecognized method name is emitted as a direct same-name call
with the arguments generated unchanged, and an unrecognized member name as
a plain field access. -/
theorem codegen_method_fallback :
    (∀ (obj : Expression) (m : String) (args : List Expression), m ∉ knownMethodNames →
      genExpr (.methodCall obj m args) =
        genExpr obj ++ "." ++
          (m ++ "(" ++ String.intercalate ", " (args.map genExpr) ++ ")")) ∧
    (∀ (obj : Expression) (member : String), member ≠ "length" →
      genExpr (.memberAccess obj member) = genExpr obj ++ "." ++ member) := by
  constructor
  · intro obj m args hm
    simp only [knownMethodNames, List.mem_cons, List.not_mem_nil, or_false, not_or] at hm
    obtain ⟨h1, h2, h3, h4, h5, h6, h7, h8, h9, h10, h11, h12, h13, h14, h15, h16, h17,
      h18, h19⟩ := hm
    rw [show genExpr (.methodCall obj m args) =
        genMethodCallStr (genExpr obj) m (genList args) from by simp only [genExpr]]
    unfold genMethodCallStr
    rw [if_neg h1, if_neg h2, if_neg h3, if_neg h4, if_neg h5,
      if_neg (by rintro (hc | hc) <;> [exact h6 hc; exact h7 hc]),
      if_neg h8, if_neg h9, if_neg h10, if_neg h11, if_neg h12, if_neg h13, if_neg h14,
      if_neg h15, if_neg h16, if_neg h17,
      if_neg (by rintro (hc | hc) <;> [exact h18 hc; exact h19 hc])]
    rw [genList_eq_map]
  · intro obj member hmem
    rw [show genExpr (.memberAccess obj member) =
        genExpr obj ++ "." ++ (if member = "length" then "len() as i32" else member) from by
      simp only [genExpr]]
    rw [if_neg hmem]

theorem codegen_method_fallback_witness :
    ("fooBar" ∉ knownMethodNames) ∧
    genExpr (.methodCall (.identifier "v") "fooBar" [.numberLiteral 1]) = "v.fooBar(1)" ∧
    genExpr (.memberAccess (.identifier "v") "x") = "v.x" := by
  refine ⟨by decide, ?_, ?_⟩
  · have h := codegen_method_fallback.1 (.identifier "v") "fooBar" [.numberLiteral 1]
      (by decide)
    rw [h]
    simp only [genExpr, List.map]
    rfl
  · have h := codegen_method_fallback.2 (.identifier "v") "x" (by decide)
    rw [h]
    simp only [genExpr]
    rfl

theorem peekT_lt {T : List Token} {c : Nat} (h : c < T.length) :
    peekT T c = .ok (T.get ⟨c, h⟩, c) := dif_pos h

theorem advanceT_eq {T : List Token} {c : Nat} (h : c < T.length)
    (hk : (T.get ⟨c, h⟩).kind ≠ .eof) : advanceT T c = .ok (T.get ⟨c, h⟩, c + 1) := by
  unfold advanceT
  simp only [dif_pos h, beq_iff_eq, if_neg hk]
  rw [dif_pos (⟨by omega, by simpa using h⟩ : 1 ≤ c + 1 ∧ c + 1 - 1 < T.length)]
  simp

theorem checkT_ne_eof {T : List Token} {c : Nat} (k : TokenKind) (h : c < T.length)
    (hk : (T.get ⟨c, h⟩).kind ≠ .eof) :
    checkT T k c = .ok ((kindTag (T.get ⟨c, h⟩).kind == kindTag k), c) := by
  unfold checkT
  simp only [dif_pos h, beq_iff_eq]
  rw [if_neg hk]

theorem checkT_at_eof {T : List Token} {c : Nat} (k : TokenKind) (h : c < T.length)
    (hk : (T.get ⟨c, h⟩).kind = .eof) : checkT T k c = .ok (false, c) := by
  unfold checkT
  simp only [dif_pos h, beq_iff_eq]
  rw [if_pos hk]

theorem checkT_oob {T : List Token} {c : Nat} (k : TokenKind) (h : ¬c < T.length) :
    checkT T k c = .ok (false, c) := by
  unfold checkT
  rw [dif_neg h]

theorem isAtEndT_lt {T : List Token} {c : Nat} (h : c < T.length) :
    isAtEndT T c = .ok (((T.get ⟨c, h⟩).kind == .eof), c) := by
  unfold isAtEndT
  rw [dif_pos h]

theorem isAtEndT_oob {T : List Token} {c : Nat} (h : ¬c < T.length) :
    isAtEndT T c = .ok (true, c) := by
  unfold isAtEndT
  rw [dif_neg h]

theorem matchTokenT_st {T : List Token} {c : Nat} (k : TokenKind) (h : c < T.length)
    (hk : (T.get ⟨c, h⟩).kind ≠ .eof) :
    matchTokenT T k c =
      if kindTag (T.get ⟨c, h⟩).kind = kindTag k then .ok (true, c + 1)
      else .ok (false, c) := by
  unfold matchTokenT
  rw [checkT_ne_eof k h hk]
  by_cases ht : kindTag (T.get ⟨c, h⟩).kind = kindTag k
  · have hb : (kindTag (T.get ⟨c, h⟩).kind == kindTag k) = true := beq_iff_eq.2 ht
    rw [if_pos ht, hb]
    simp only [pbind, if_true]
    rw [advanceT_eq h hk]
  · have hb : (kindTag (T.get ⟨c, h⟩).kind == kindTag k) = false := by
      simpa using ht
    rw [if_neg ht, hb]
    simp [pbind]

theorem consumeT_hit {T : List Token} {c : Nat} (k : TokenKind) (msg : String)
    (h : c < T.length) (hk : (T.get ⟨c, h⟩).kind ≠ .eof)
    (ht : kindTag (T.get ⟨c, h⟩).kind = kindTag k) :
    consumeT T k msg c = .ok (T.get ⟨c, h⟩, c + 1) := by
  unfold consumeT
  rw [checkT_ne_eof k h hk]
  have hb : (kindTag (T.get ⟨c, h⟩).kind == kindTag k) = true := beq_iff_eq.2 ht
  rw [hb]
  simp only [pbind, if_true]
  rw [advanceT_eq h hk]

/-- C4: in `parse_primary`, an identifier immediately followed by `\x7b`
commits to a struct literal exactly when the token after the `\x7b` is an
identifier or `\x7d`: with any other lookahead token the identifier is
returned and the brace is left for the enclosing parser (first conjunct,
for every lookahead token and continuation); with identifier or `\x7d`
lookahead the struct literal is parsed (second and third conjuncts); and
consequently `if x \x7b print(1); \x7d` parses as an if statement whose
block is not a struct literal (last conjunct). -/
theorem struct_literal_disambiguation :
    (∀ (name : String) (t : Token) (rest : List Token) (fuel : Nat),
      isIdentOrRBraceK t.kind = false →
      parsePrimaryT (⟨.ident name, 1, 1⟩ :: ⟨.leftBrace, 1, 1⟩ :: t :: rest) (fuel + 2) 0 =
        .ok (.identifier name, 1)) ∧
    parseT [⟨.ident "x", 1, 1⟩, ⟨.leftBrace, 1, 3⟩, ⟨.ident "y", 1, 5⟩, ⟨.colon, 1, 6⟩,
        ⟨.numberLit 1, 1, 8⟩, ⟨.rightBrace, 1, 10⟩, ⟨.semicolon, 1, 11⟩, ⟨.eof, 1, 12⟩] 30 =
      .ok (⟨[.expressionStmt (.structLiteral "x" [("y", .numberLiteral 1)])]⟩, 7) ∧
    parseT [⟨.ident "x", 1, 1⟩, ⟨.leftBrace, 1, 3⟩, ⟨.rightBrace, 1, 5⟩, ⟨.semicolon, 1, 6⟩,
        ⟨.eof, 1, 7⟩] 30 =
      .ok (⟨[.expressionStmt (.structLiteral "x" [])]⟩, 4) ∧
    parseT [⟨.kIf, 1, 1⟩, ⟨.ident "x", 1, 4⟩, ⟨.leftBrace, 1, 6⟩, ⟨.kPrint, 1, 8⟩,
        ⟨.leftParen, 1, 13⟩, ⟨.numberLit 1, 1, 14⟩, ⟨.rightParen, 1, 15⟩,
        ⟨.semicolon, 1, 16⟩, ⟨.rightBrace, 1, 18⟩, ⟨.eof, 1, 19⟩] 30 =
      .ok (⟨[.ifElse (.identifier "x") [.printStmt (.numberLiteral 1)] none]⟩, 9) := by
  refine ⟨?_, rfl, rfl, rfl⟩
  intro name t rest fuel h
  set T : List Token := ⟨.ident name, 1, 1⟩ :: ⟨.leftBrace, 1, 1⟩ :: t :: rest with hT
  have h0 : (0 : Nat) < T.length := by simp [hT]
  have h1 : (1 : Nat) < T.length := by simp [hT]
  have hg0 : T.get ⟨0, h0⟩ = ⟨.ident name, 1, 1⟩ := rfl
  have hg1 : T.get ⟨1, h1⟩ = ⟨.leftBrace, 1, 1⟩ := rfl
  rw [parsePrimaryT]
  rw [peekT_lt h0, hg0]
  simp only [pbind]
  rw [advanceT_eq h0 (by rw [hg0]; simp)]
  simp only [pbind, hg0]
  rw [matchTokenT_st .leftParen h1 (by rw [hg1]; simp)]
  rw [hg1]
  rw [if_neg (by decide)]
  simp only [pbind]
  rw [checkT_ne_eof .leftBrace h1 (by rw [hg1]; simp)]
  rw [hg1]
  simp only [pbind]
  rw [show (kindTag TokenKind.leftBrace == kindTag TokenKind.leftBrace) = true from rfl]
  rw [show isStructLiteralAheadT T 1 = isIdentOrRBraceK t.kind from rfl]
  rw [h]
  simp only [Bool.and_false, Bool.false_eq_true, if_false]
  rw [parsePostfixT]
  rw [checkT_ne_eof .leftBracket h1 (by rw [hg1]; simp)]
  rw [hg1]
  simp only [pbind]
  rw [checkT_ne_eof .dot h1 (by rw [hg1]; simp)]
  rw [hg1]
  simp only [pbind]
  rw [show (kindTag TokenKind.leftBrace == kindTag TokenKind.leftBracket) = false from rfl]
  rw [show (kindTag TokenKind.leftBrace == kindTag TokenKind.dot) = false from rfl]
  simp

theorem struct_literal_disambiguation_witness :
    isIdentOrRBraceK (TokenKind.kPrint) = false ∧
    parsePrimaryT [⟨.ident "x", 1, 1⟩, ⟨.leftBrace, 1, 1⟩, ⟨.kPrint, 1, 1⟩] 12 0 =
      .ok (.identifier "x", 1) :=
  ⟨rfl, struct_literal_disambiguation.1 "x" ⟨.kPrint, 1, 1⟩ [] 10 rfl⟩

/-- C9: whenever the token under the cursor is `!`, `parse_primary` does not
build a negation node: after consuming the `!` it parses the operand with a
recursive `parse_primary` call and feeds
`BinaryOp \x7b left: BooleanLiteral(false), op: And, right: operand \x7d`
to the postfix loop (first conjunct, for every token list, cursor and fuel);
concretely the program `!x;` parses to exactly that node (second conjunct),
and the generator emits it as `false && x` (third conjunct). -/
theorem bang_desugars_to_false_and :
    (∀ (T : List Token) (fuel c : Nat) (h : c < T.length),
      (T.get ⟨c, h⟩).kind = .bang →
      parsePrimaryT T (fuel + 1) c =
        pbind (parsePrimaryT T fuel (c + 1)) fun e c2 =>
          parsePostfixT T fuel (.binaryOp (.booleanLiteral false) .andOp e) c2) ∧
    parseT [⟨.bang, 1, 1⟩, ⟨.ident "x", 1, 2⟩, ⟨.semicolon, 1, 3⟩, ⟨.eof, 1, 4⟩] 30 =
      .ok (⟨[.expressionStmt (.binaryOp (.booleanLiteral false) .andOp (.identifier "x"))]⟩,
        3) ∧
    genExpr (.binaryOp (.booleanLiteral false) .andOp (.identifier "x")) = "false && x" := by
  refine ⟨?_, rfl, by simp only [genExpr]; rfl⟩
  intro T fuel c h hk
  rw [parsePrimaryT]
  rw [peekT_lt h]
  simp only [pbind]
  rw [hk]
  rw [advanceT_eq h (by rw [hk]; simp)]

theorem bang_desugars_to_false_and_witness :
    ((0 : Nat) < ([⟨.bang, 1, 1⟩, ⟨.ident "x", 1, 2⟩, ⟨.eof, 1, 3⟩] : List Token).length) ∧
    parsePrimaryT [⟨.bang, 1, 1⟩, ⟨.ident "x", 1, 2⟩, ⟨.eof, 1, 3⟩] 11 0 =
      pbind (parsePrimaryT [⟨.bang, 1, 1⟩, ⟨.ident "x", 1, 2⟩, ⟨.eof, 1, 3⟩] 10 1) fun e c2 =>
        parsePostfixT [⟨.bang, 1, 1⟩, ⟨.ident "x", 1, 2⟩, ⟨.eof, 1, 3⟩] 10
          (.binaryOp (.booleanLiteral false) .andOp e) c2 :=
  ⟨by decide, bang_desugars_to_false_and.1 _ 10 0 (by decide) rfl⟩

/-- The C10 hypothesis on the token list: nonempty, with the end-of-stream
token as its last element (tokenize always produces such a list). -/
def EofLast (T : List Token) : Prop :=
  ∃ h : 0 < T.length, (T.get ⟨T.length - 1, Nat.sub_lt h Nat.one_pos⟩).kind = .eof

/-- Cursor safety of one parser result: an error is never the out-of-bounds
marker, and a success leaves the cursor strictly inside the token vector
(hence at or before the index of the end-of-stream token). -/
def GoodR (T : List Token) {α : Type} : Except PErr (α × Nat) → Prop
  | .error e => e ≠ PErr.oob
  | .ok (_, c) => c < T.length

/-- Cursor safety of a parser stage at every in-bounds start cursor. -/
def GoodFn (T : List Token) {α : Type} (g : Nat → Except PErr (α × Nat)) : Prop :=
  ∀ c, c < T.length → GoodR T (g c)

/-- Cursor safety of a stage that (like the keyword statement parsers) is
only entered with the cursor on a non-end-of-stream token. -/
def GoodFnNE (T : List Token) {α : Type} (g : Nat → Except PErr (α × Nat)) : Prop :=
  ∀ c (hc : c < T.length), (T.get ⟨c, hc⟩).kind ≠ .eof → GoodR T (g c)

theorem goodR_perr {α : Type} (T : List Token) (m : String) :
    @GoodR T α (.error (.perr m)) := fun h => PErr.noConfusion h

theorem eofLast_succ {T : List Token} {c : Nat} (Heof : EofLast T) (hc : c < T.length)
    (hk : (T.get ⟨c, hc⟩).kind ≠ .eof) : c + 1 < T.length := by
  obtain ⟨h0, hl⟩ := Heof
  by_contra hge
  have hce : c = T.length - 1 := by omega
  apply hk
  subst hce
  exact hl

theorem pbind_assoc {α β γ : Type} (m : Except PErr (α × Nat))
    (g : α → Nat → Except PErr (β × Nat)) (f : β → Nat → Except PErr (γ × Nat)) :
    pbind (pbind m g) f = pbind m fun a c => pbind (g a c) f := by
  cases m with
  | error e => rfl
  | ok p => obtain ⟨a, c⟩ := p; rfl

theorem good_bind {α β : Type} {T : List Token} {m : Except PErr (α × Nat)}
    {f : α → Nat → Except PErr (β × Nat)} (hm : GoodR T m)
    (hf : ∀ a c, c < T.length → GoodR T (f a c)) : GoodR T (pbind m f) := by
  cases m with
  | error e => exact hm
  | ok p => obtain ⟨a, c⟩ := p; exact hf a c hm

theorem good_peek {β : Type} {T : List Token} {c : Nat} (hc : c < T.length)
    (f : Token → Nat → Except PErr (β × Nat))
    (hf : GoodR T (f (T.get ⟨c, hc⟩) c)) : GoodR T (pbind (peekT T c) f) := by
  rw [peekT_lt hc]
  exact hf

theorem good_advance {β : Type} {T : List Token} {c : Nat} (Heof : EofLast T)
    (hc : c < T.length) (hk : (T.get ⟨c, hc⟩).kind ≠ .eof)
    (f : Token → Nat → Except PErr (β × Nat))
    (hf : c + 1 < T.length → GoodR T (f (T.get ⟨c, hc⟩) (c + 1))) :
    GoodR T (pbind (advanceT T c) f) := by
  rw [advanceT_eq hc hk]
  exact hf (eofLast_succ Heof hc hk)

theorem good_check {β : Type} {T : List Token} {c : Nat} (k : TokenKind)
    (hc : c < T.length) (f : Bool → Nat → Except PErr (β × Nat))
    (hf : ∀ b : Bool, (b = true → (T.get ⟨c, hc⟩).kind ≠ .eof) → GoodR T (f b c)) :
    GoodR T (pbind (checkT T k c) f) := by
  by_cases he : (T.get ⟨c, hc⟩).kind = .eof
  · rw [checkT_at_eof k hc he]
    exact hf false (by simp)
  · rw [checkT_ne_eof k hc he]
    exact hf _ (fun _ => he)

theorem good_isAtEnd {β : Type} {T : List Token} {c : Nat} (hc : c < T.length)
    (f : Bool → Nat → Except PErr (β × Nat))
    (hf : ∀ b : Bool, GoodR T (f b c)) : GoodR T (pbind (isAtEndT T c) f) := by
  rw [isAtEndT_lt hc]
  exact hf _

theorem good_matchToken {β : Type} {T : List Token} {c : Nat} (Heof : EofLast T)
    (k : TokenKind) (hc : c < T.length) (f : Bool → Nat → Except PErr (β × Nat))
    (hf : ∀ b c2, c2 < T.length → GoodR T (f b c2)) :
    GoodR T (pbind (matchTokenT T k c) f) := by
  by_cases he : (T.get ⟨c, hc⟩).kind = .eof
  · unfold matchTokenT
    rw [pbind_assoc]
    refine good_check k hc _ (fun b hb => ?_)
    cases b
    · exact hf false c hc
    · exact absurd he (hb rfl)
  · rw [matchTokenT_st k hc he]
    by_cases ht : kindTag (T.get ⟨c, hc⟩).kind = kindTag k
    · rw [if_pos ht]
      exact hf true (c + 1) (eofLast_succ Heof hc he)
    · rw [if_neg ht]
      exact hf false c hc

theorem good_consume {β : Type} {T : List Token} {c : Nat} (Heof : EofLast T)
    (k : TokenKind) (msg : String) (hc : c < T.length)
    (f : Token → Nat → Except PErr (β × Nat))
    (hf : ∀ tok c2, c2 < T.length → GoodR T (f tok c2)) :
    GoodR T (pbind (consumeT T k msg c) f) := by
  unfold consumeT
  rw [pbind_assoc]
  refine good_check k hc _ (fun b hb => ?_)
  cases b
  · rw [if_neg (by decide : ¬(false = true))]
    rw [pbind_assoc]
    refine good_peek hc _ ?_
    exact fun h => PErr.noConfusion h
  · rw [if_pos rfl]
    exact good_advance Heof hc (hb rfl) f (fun h2 => hf _ _ h2)

theorem pbind_ok {α β : Type} (a : α) (c : Nat) (f : α → Nat → Except PErr (β × Nat)) :
    pbind (.ok (a, c)) f = f a c := rfl

theorem good_expectIdent {β : Type} {T : List Token} {c : Nat} (Heof : EofLast T)
    (hc : c < T.length) (f : String → Nat → Except PErr (β × Nat))
    (hf : ∀ s c2, c2 < T.length → GoodR T (f s c2)) :
    GoodR T (pbind (expectIdentifierT T c) f) := by
  unfold expectIdentifierT
  rw [pbind_assoc, peekT_lt hc, pbind_ok]
  beta_reduce
  cases hK : (T.get ⟨c, hc⟩).kind <;> (try dsimp only) <;>
    first
    | exact fun h => PErr.noConfusion h
    | (rw [pbind_assoc]
       exact good_advance Heof hc (by rw [hK]; simp) _ (fun h2 => hf _ _ h2))

theorem good_matchBinaryOp {β : Type} {T : List Token} (Heof : EofLast T)
    (ks : List TokenKind) {c : Nat} (hc : c < T.length)
    (f : Option BinaryOp → Nat → Except PErr (β × Nat))
    (hf : ∀ op c2, c2 < T.length → GoodR T (f op c2)) :
    GoodR T (pbind (matchBinaryOpT T ks c) f) := by
  induction ks generalizing c with
  | nil => exact hf none c hc
  | cons k ks ihk =>
      rw [matchBinaryOpT]
      rw [pbind_assoc]
      refine good_check k hc _ (fun b hb => ?_)
      cases b
      · rw [if_neg (by decide : ¬(false = true))]
        exact ihk hc
      · rw [if_pos rfl]
        cases hop : tokenOp k
        · exact hf none c hc
        · rw [pbind_assoc]
          exact good_advance Heof hc (hb rfl) _ (fun h2 => hf _ _ h2)

set_option maxHeartbeats 4000000 in
/-- The cursor-safety invariant, proved simultaneously for every function of
the parser by induction on the fuel. -/
theorem parserFunsGood (T : List Token) (Heof : EofLast T) : ∀ fuel,
    GoodFn T (parseStatementT T fuel) ∧
    GoodFnNE T (parseImportT T fuel) ∧
    GoodFn T (parseImportItemsT T fuel) ∧
    GoodFnNE T (parseExportT T fuel) ∧
    (∀ isC, GoodFnNE T (parseVariableDeclT T isC fuel)) ∧
    GoodFnNE T (parseFunctionDeclT T fuel) ∧
    GoodFn T (parseParamsT T fuel) ∧
    GoodFn T (parseFnBodyT T fuel) ∧
    GoodFnNE T (parsePrintT T fuel) ∧
    GoodFnNE T (parseReturnT T fuel) ∧
    GoodFnNE T (parseIfElseT T fuel) ∧
    GoodFnNE T (parseForT T fuel) ∧
    GoodFnNE T (parseWhileT T fuel) ∧
    GoodFnNE T (parseBreakT T fuel) ∧
    GoodFnNE T (parseContinueT T fuel) ∧
    GoodFnNE T (parseStructDeclT T fuel) ∧
    GoodFn T (parseStructFieldsT T fuel) ∧
    GoodFnNE T (parseEnumDeclT T fuel) ∧
    GoodFn T (parseEnumVariantsT T fuel) ∧
    GoodFn T (parseEnumVariantTypesT T fuel) ∧
    GoodFnNE T (parseTryCatchT T fuel) ∧
    GoodFnNE T (parseThrowT T fuel) ∧
    GoodFn T (parseBlockT T fuel) ∧
    GoodFn T (parseExpressionT T fuel) ∧
    GoodFn T (parseLogicalOrT T fuel) ∧
    (∀ e, GoodFn T (parseOrLoopT T fuel e)) ∧
    GoodFn T (parseLogicalAndT T fuel) ∧
    (∀ e, GoodFn T (parseAndLoopT T fuel e)) ∧
    GoodFn T (parseComparisonT T fuel) ∧
    (∀ e, GoodFn T (parseComparisonLoopT T fuel e)) ∧
    GoodFn T (parseAdditiveT T fuel) ∧
    (∀ e, GoodFn T (parseAdditiveLoopT T fuel e)) ∧
    GoodFn T (parseMultiplicativeT T fuel) ∧
    (∀ e, GoodFn T (parseMultiplicativeLoopT T fuel e)) ∧
    GoodFn T (parsePrimaryT T fuel) ∧
    GoodFn T (parseStructFieldInitsT T fuel) ∧
    GoodFn T (parseCallArgsT T fuel) ∧
    (∀ e, GoodFn T (parsePostfixT T fuel e)) ∧
    GoodFn T (parseTypeT T fuel) := by
  intro fuel
  induction fuel with
  | zero =>
      refine ⟨?_, ?_, ?_, ?_, ?_, ?_, ?_, ?_, ?_, ?_, ?_, ?_, ?_, ?_, ?_, ?_, ?_, ?_, ?_,
        ?_, ?_, ?_, ?_, ?_, ?_, ?_, ?_, ?_, ?_, ?_, ?_, ?_, ?_, ?_, ?_, ?_, ?_, ?_, ?_⟩ <;>
        (simp only [GoodFn, GoodFnNE]
         intros
         simp only [parseStatementT, parseImportT, parseImportItemsT, parseExportT,
           parseVariableDeclT, parseFunctionDeclT, parseParamsT, parseFnBodyT, parsePrintT,
           parseReturnT, parseIfElseT, parseForT, parseWhileT, parseBreakT, parseContinueT,
           parseStructDeclT, parseStructFieldsT, parseEnumDeclT, parseEnumVariantsT,
           parseEnumVariantTypesT, parseTryCatchT, parseThrowT, parseBlockT,
           parseExpressionT, parseLogicalOrT, parseOrLoopT, parseLogicalAndT, parseAndLoopT,
           parseComparisonT, parseComparisonLoopT, parseAdditiveT, parseAdditiveLoopT,
           parseMultiplicativeT, parseMultiplicativeLoopT, parsePrimaryT,
           parseStructFieldInitsT, parseCallArgsT, parsePostfixT, parseTypeT, fuelErr]
         exact goodR_perr T "out of fuel")
  | succ fuel ih =>
      obtain ⟨ihStmt, ihImp, ihImpItems, ihExp, ihVar, ihFun, ihParams, ihBody, ihPrint,
        ihRet, ihIf, ihFor, ihWhile, ihBreak, ihCont, ihStructD, ihStructF, ihEnumD,
        ihEnumV, ihEnumT, ihTry, ihThrow, ihBlock, ihExpr, ihOr, ihOrL, ihAnd, ihAndL,
        ihCmp, ihCmpL, ihAdd, ihAddL, ihMul, ihMulL, ihPrim, ihFieldInit, ihArgs, ihPost,
        ihType⟩ := ih
      refine ⟨?_, ?_, ?_, ?_, ?_, ?_, ?_, ?_, ?_, ?_, ?_, ?_, ?_, ?_, ?_, ?_, ?_, ?_, ?_,
        ?_, ?_, ?_, ?_, ?_, ?_, ?_, ?_, ?_, ?_, ?_, ?_, ?_, ?_, ?_, ?_, ?_, ?_, ?_, ?_⟩
      · -- parseStatementT
        intro c hc
        rw [parseStatementT]
        rw [peekT_lt hc, pbind_ok]
        cases hK : (T.get ⟨c, hc⟩).kind
        case kImport => exact ihImp c hc (by rw [hK]; simp)
        case kExport => exact ihExp c hc (by rw [hK]; simp)
        case kLet => exact ihVar false c hc (by rw [hK]; simp)
        case kConst => exact ihVar true c hc (by rw [hK]; simp)
        case kFunction => exact ihFun c hc (by rw [hK]; simp)
        case kStruct => exact ihStructD c hc (by rw [hK]; simp)
        case kEnum => exact ihEnumD c hc (by rw [hK]; simp)
        case kPrint => exact ihPrint c hc (by rw [hK]; simp)
        case kReturn => exact ihRet c hc (by rw [hK]; simp)
        case kIf => exact ihIf c hc (by rw [hK]; simp)
        case kFor => exact ihFor c hc (by rw [hK]; simp)
        case kWhile => exact ihWhile c hc (by rw [hK]; simp)
        case kBreak => exact ihBreak c hc (by rw [hK]; simp)
        case kContinue => exact ihCont c hc (by rw [hK]; simp)
        case kTry => exact ihTry c hc (by rw [hK]; simp)
        case kThrow => exact ihThrow c hc (by rw [hK]; simp)
        all_goals
          exact good_bind (ihExpr c hc) (fun e c1 h1 =>
            good_consume Heof _ _ h1 _ (fun _ c2 h2 => h2))
      · -- parseImportT
        intro c hc hne
        rw [parseImportT]
        refine good_advance Heof hc hne _ (fun h1 => ?_)
        refine good_check _ h1 _ (fun b hb => ?_)
        refine good_bind ?_ (fun imports c6 h6 => ?_)
        · cases b
          · refine good_peek h1 _ ?_
            beta_reduce
            cases hK : (T.get ⟨c + 1, h1⟩).kind
            case ident name =>
              refine good_expectIdent Heof h1 _ (fun name2 c4 h4 => ?_)
              refine good_matchToken Heof _ h4 _ (fun mb c5 h5 => ?_)
              cases mb
              · exact fun h => PErr.noConfusion h
              · exact h5
            case stringLit s => exact h1
            all_goals exact fun h => PErr.noConfusion h
          · refine good_advance Heof h1 (hb rfl) _ (fun h2 => ?_)
            refine good_bind (ihImpItems _ h2) (fun imports c4 h4 => ?_)
            refine good_consume Heof _ _ h4 _ (fun _ c5 h5 => ?_)
            refine good_consume Heof _ _ h5 _ (fun _ c6 h6 => ?_)
            exact h6
        · refine good_peek h6 _ ?_
          beta_reduce
          cases hK2 : (T.get ⟨c6, h6⟩).kind
          case stringLit s =>
            refine good_advance Heof h6 (by rw [hK2]; simp) _ (fun h7 => ?_)
            refine good_matchToken Heof _ h7 _ (fun ab c9 h9 => ?_)
            refine good_bind ?_ (fun aliasOpt c10 h10 => ?_)
            · cases ab
              · exact h9
              · exact good_expectIdent Heof h9 _ (fun a c10 h10 => h10)
            · refine good_consume Heof _ _ h10 _ (fun _ c11 h11 => ?_)
              exact h11
          all_goals exact fun h => PErr.noConfusion h
      · -- parseImportItemsT
        intro c hc
        rw [parseImportItemsT]
        refine good_expectIdent Heof hc _ (fun name c1 h1 => ?_)
        refine good_matchToken Heof _ h1 _ (fun ab c2 h2 => ?_)
        refine good_bind ?_ (fun aliasOpt c3 h3 => ?_)
        · cases ab
          · exact h2
          · exact good_expectIdent Heof h2 _ (fun a c3 h3 => h3)
        · refine good_matchToken Heof _ h3 _ (fun mb c4 h4 => ?_)
          cases mb
          · exact h4
          · exact good_bind (ihImpItems _ h4) (fun rest c5 h5 => h5)
      · -- parseExportT
        intro c hc hne
        rw [parseExportT]
        refine good_advance Heof hc hne _ (fun h1 => ?_)
        refine good_peek h1 _ ?_
        beta_reduce
        cases hK : (T.get ⟨c + 1, h1⟩).kind
        case kFunction => exact good_bind (ihFun _ h1 (by rw [hK]; simp)) (fun s c3 h3 => h3)
        case kStruct =>
          exact good_bind (ihStructD _ h1 (by rw [hK]; simp)) (fun s c3 h3 => h3)
        case kEnum => exact good_bind (ihEnumD _ h1 (by rw [hK]; simp)) (fun s c3 h3 => h3)
        case kConst =>
          exact good_bind (ihVar true _ h1 (by rw [hK]; simp)) (fun s c3 h3 => h3)
        case kLet =>
          exact good_bind (ihVar false _ h1 (by rw [hK]; simp)) (fun s c3 h3 => h3)
        all_goals exact fun h => PErr.noConfusion h
      · -- parseVariableDeclT
        intro isC c hc hne
        rw [parseVariableDeclT]
        refine good_advance Heof hc hne _ (fun h1 => ?_)
        refine good_expectIdent Heof h1 _ (fun name c2 h2 => ?_)
        refine good_matchToken Heof _ h2 _ (fun mb c3 h3 => ?_)
        refine good_bind ?_ (fun varType c4 h4 => ?_)
        · cases mb
          · exact h3
          · exact good_bind (ihType _ h3) (fun t c4 h4 => h4)
        · refine good_consume Heof _ _ h4 _ (fun _ c5 h5 => ?_)
          refine good_bind (ihExpr _ h5) (fun value c6 h6 => ?_)
          refine good_consume Heof _ _ h6 _ (fun _ c7 h7 => ?_)
          exact h7
      · -- parseFunctionDeclT
        intro c hc hne
        rw [parseFunctionDeclT]
        refine good_advance Heof hc hne _ (fun h1 => ?_)
        refine good_expectIdent Heof h1 _ (fun name c2 h2 => ?_)
        refine good_consume Heof _ _ h2 _ (fun _ c3 h3 => ?_)
        refine good_check _ h3 _ (fun b hb => ?_)
        refine good_bind ?_ (fun params c5 h5 => ?_)
        · cases b
          · exact ihParams _ h3
          · exact h3
        · refine good_consume Heof _ _ h5 _ (fun _ c6 h6 => ?_)
          refine good_consume Heof _ _ h6 _ (fun _ c7 h7 => ?_)
          refine good_bind (ihType _ h7) (fun retTy c8 h8 => ?_)
          refine good_consume Heof _ _ h8 _ (fun _ c9 h9 => ?_)
          refine good_bind (ihBody _ h9) (fun body c10 h10 => ?_)
          refine good_consume Heof _ _ h10 _ (fun _ c11 h11 => ?_)
          exact h11
      · -- parseParamsT
        intro c hc
        rw [parseParamsT]
        refine good_expectIdent Heof hc _ (fun pname c1 h1 => ?_)
        refine good_consume Heof _ _ h1 _ (fun _ c2 h2 => ?_)
        refine good_bind (ihType _ h2) (fun pty c3 h3 => ?_)
        refine good_matchToken Heof _ h3 _ (fun mb c4 h4 => ?_)
        cases mb
        · exact h4
        · exact good_bind (ihParams _ h4) (fun rest c5 h5 => h5)
      · -- parseFnBodyT
        intro c hc
        rw [parseFnBodyT]
        refine good_check _ hc _ (fun b hb => ?_)
        cases b
        · refine good_isAtEnd hc _ (fun e => ?_)
          cases e
          · refine good_check _ hc _ (fun b2 hb2 => ?_)
            cases b2
            · refine good_bind (ihStmt c hc) (fun s c4 h4 => ?_)
              exact good_bind (ihBody _ h4) (fun rest c5 h5 => h5)
            · exact hc
          · exact hc
        · exact hc
      · -- parsePrintT
        intro c hc hne
        rw [parsePrintT]
        refine good_advance Heof hc hne _ (fun h1 => ?_)
        refine good_consume Heof _ _ h1 _ (fun _ c2 h2 => ?_)
        refine good_bind (ihExpr _ h2) (fun e c3 h3 => ?_)
        refine good_consume Heof _ _ h3 _ (fun _ c4 h4 => ?_)
        refine good_consume Heof _ _ h4 _ (fun _ c5 h5 => ?_)
        exact h5
      · -- parseReturnT
        intro c hc hne
        rw [parseReturnT]
        refine good_advance Heof hc hne _ (fun h1 => ?_)
        refine good_check _ h1 _ (fun b hb => ?_)
        refine good_bind ?_ (fun v c3 h3 => ?_)
        · cases b
          · exact good_bind (ihExpr _ h1) (fun e c3 h3 => h3)
          · exact h1
        · refine good_consume Heof _ _ h3 _ (fun _ c4 h4 => ?_)
          exact h4
      · -- parseIfElseT
        intro c hc hne
        rw [parseIfElseT]
        refine good_advance Heof hc hne _ (fun h1 => ?_)
        refine good_bind (ihExpr _ h1) (fun cond c2 h2 => ?_)
        refine good_consume Heof _ _ h2 _ (fun _ c3 h3 => ?_)
        refine good_bind (ihBlock _ h3) (fun thenBody c4 h4 => ?_)
        refine good_consume Heof _ _ h4 _ (fun _ c5 h5 => ?_)
        refine good_matchToken Heof _ h5 _ (fun mb c6 h6 => ?_)
        refine good_bind ?_ (fun elseBody c7 h7 => ?_)
        · cases mb
          · exact h6
          · refine good_consume Heof _ _ h6 _ (fun _ c7 h7 => ?_)
            refine good_bind (ihBlock _ h7) (fun blk c8 h8 => ?_)
            refine good_consume Heof _ _ h8 _ (fun _ c9 h9 => ?_)
            exact h9
        · exact h7
      · -- parseForT
        intro c hc hne
        rw [parseForT]
        refine good_advance Heof hc hne _ (fun h1 => ?_)
        refine good_expectIdent Heof h1 _ (fun v c2 h2 => ?_)
        refine good_consume Heof _ _ h2 _ (fun _ c3 h3 => ?_)
        refine good_bind (ihExpr _ h3) (fun iter c4 h4 => ?_)
        refine good_consume Heof _ _ h4 _ (fun _ c5 h5 => ?_)
        refine good_bind (ihBlock _ h5) (fun body c6 h6 => ?_)
        refine good_consume Heof _ _ h6 _ (fun _ c7 h7 => ?_)
        exact h7
      · -- parseWhileT
        intro c hc hne
        rw [parseWhileT]
        refine good_advance Heof hc hne _ (fun h1 => ?_)
        refine good_bind (ihExpr _ h1) (fun cond c2 h2 => ?_)
        refine good_consume Heof _ _ h2 _ (fun _ c3 h3 => ?_)
        refine good_bind (ihBlock _ h3) (fun body c4 h4 => ?_)
        refine good_consume Heof _ _ h4 _ (fun _ c5 h5 => ?_)
        exact h5
      · -- parseBreakT
        intro c hc hne
        rw [parseBreakT]
        refine good_advance Heof hc hne _ (fun h1 => ?_)
        refine good_consume Heof _ _ h1 _ (fun _ c2 h2 => ?_)
        exact h2
      · -- parseContinueT
        intro c hc hne
        rw [parseContinueT]
        refine good_advance Heof hc hne _ (fun h1 => ?_)
        refine good_consume Heof _ _ h1 _ (fun _ c2 h2 => ?_)
        exact h2
      · -- parseStructDeclT
        intro c hc hne
        rw [parseStructDeclT]
        refine good_advance Heof hc hne _ (fun h1 => ?_)
        refine good_expectIdent Heof h1 _ (fun name c2 h2 => ?_)
        refine good_consume Heof _ _ h2 _ (fun _ c3 h3 => ?_)
        refine good_bind (ihStructF _ h3) (fun fields c4 h4 => ?_)
        refine good_consume Heof _ _ h4 _ (fun _ c5 h5 => ?_)
        exact h5
      · -- parseStructFieldsT
        intro c hc
        rw [parseStructFieldsT]
        refine good_check _ hc _ (fun b hb => ?_)
        cases b
        · refine good_isAtEnd hc _ (fun e => ?_)
          cases e
          · refine good_expectIdent Heof hc _ (fun fname c3 h3 => ?_)
            refine good_consume Heof _ _ h3 _ (fun _ c4 h4 => ?_)
            refine good_bind (ihType _ h4) (fun fty c5 h5 => ?_)
            refine good_matchToken Heof _ h5 _ (fun mb c6 h6 => ?_)
            cases mb
            · refine good_check _ h6 _ (fun b2 hb2 => ?_)
              cases b2
              · exact fun h => PErr.noConfusion h
              · exact good_bind (ihStructF _ h6) (fun rest c8 h8 => h8)
            · exact good_bind (ihStructF _ h6) (fun rest c7 h7 => h7)
          · exact hc
        · exact hc
      · -- parseEnumDeclT
        intro c hc hne
        rw [parseEnumDeclT]
        refine good_advance Heof hc hne _ (fun h1 => ?_)
        refine good_expectIdent Heof h1 _ (fun name c2 h2 => ?_)
        refine good_consume Heof _ _ h2 _ (fun _ c3 h3 => ?_)
        refine good_bind (ihEnumV _ h3) (fun variants c4 h4 => ?_)
        refine good_consume Heof _ _ h4 _ (fun _ c5 h5 => ?_)
        exact h5
      · -- parseEnumVariantsT
        intro c hc
        rw [parseEnumVariantsT]
        refine good_check _ hc _ (fun b hb => ?_)
        cases b
        · refine good_isAtEnd hc _ (fun e => ?_)
          cases e
          · refine good_expectIdent Heof hc _ (fun vname c3 h3 => ?_)
            refine good_matchToken Heof _ h3 _ (fun mp c4 h4 => ?_)
            refine good_bind ?_ (fun fields c5 h5 => ?_)
            · cases mp
              · exact h4
              · refine good_check _ h4 _ (fun br hbr => ?_)
                refine good_bind ?_ (fun ts c6 h6 => ?_)
                · cases br
                  · exact ihEnumT _ h4
                  · exact h4
                · refine good_consume Heof _ _ h6 _ (fun _ c7 h7 => ?_)
                  exact h7
            · refine good_matchToken Heof _ h5 _ (fun mb c6 h6 => ?_)
              cases mb
              · refine good_check _ h6 _ (fun b2 hb2 => ?_)
                cases b2
                · exact fun h => PErr.noConfusion h
                · exact good_bind (ihEnumV _ h6) (fun rest c8 h8 => h8)
              · exact good_bind (ihEnumV _ h6) (fun rest c7 h7 => h7)
          · exact hc
        · exact hc
      · -- parseEnumVariantTypesT
        intro c hc
        rw [parseEnumVariantTypesT]
        refine good_bind (ihType _ hc) (fun t c1 h1 => ?_)
        refine good_matchToken Heof _ h1 _ (fun mb c2 h2 => ?_)
        cases mb
        · exact h2
        · exact good_bind (ihEnumT _ h2) (fun rest c3 h3 => h3)
      · -- parseTryCatchT
        intro c hc hne
        rw [parseTryCatchT]
        refine good_advance Heof hc hne _ (fun h1 => ?_)
        refine good_consume Heof _ _ h1 _ (fun _ c2 h2 => ?_)
        refine good_bind (ihBlock _ h2) (fun tryBody c3 h3 => ?_)
        refine good_consume Heof _ _ h3 _ (fun _ c4 h4 => ?_)
        refine good_consume Heof _ _ h4 _ (fun _ c5 h5 => ?_)
        refine good_matchToken Heof _ h5 _ (fun mp c6 h6 => ?_)
        refine good_bind ?_ (fun param c7 h7 => ?_)
        · cases mp
          · exact h6
          · refine good_expectIdent Heof h6 _ (fun p c7 h7 => ?_)
            refine good_consume Heof _ _ h7 _ (fun _ c8 h8 => ?_)
            exact h8
        · refine good_consume Heof _ _ h7 _ (fun _ c8 h8 => ?_)
          refine good_bind (ihBlock _ h8) (fun catchBody c9 h9 => ?_)
          refine good_consume Heof _ _ h9 _ (fun _ c10 h10 => ?_)
          exact h10
      · -- parseThrowT
        intro c hc hne
        rw [parseThrowT]
        refine good_advance Heof hc hne _ (fun h1 => ?_)
        refine good_bind (ihExpr _ h1) (fun e c2 h2 => ?_)
        refine good_consume Heof _ _ h2 _ (fun _ c3 h3 => ?_)
        exact h3
      · -- parseBlockT
        intro c hc
        rw [parseBlockT]
        refine good_check _ hc _ (fun b hb => ?_)
        cases b
        · refine good_isAtEnd hc _ (fun e => ?_)
          cases e
          · refine good_bind (ihStmt c hc) (fun s c3 h3 => ?_)
            exact good_bind (ihBlock _ h3) (fun rest c4 h4 => h4)
          · exact hc
        · exact hc
      · -- parseExpressionT
        intro c hc
        rw [parseExpressionT]
        exact ihOr c hc
      · -- parseLogicalOrT
        intro c hc
        rw [parseLogicalOrT]
        exact good_bind (ihAnd c hc) (fun e c1 h1 => ihOrL e c1 h1)
      · -- parseOrLoopT
        intro e c hc
        rw [parseOrLoopT]
        refine good_matchBinaryOp Heof _ hc _ (fun op c1 h1 => ?_)
        cases op
        · exact h1
        · exact good_bind (ihAnd _ h1) (fun r c2 h2 => ihOrL _ _ h2)
      · -- parseLogicalAndT
        intro c hc
        rw [parseLogicalAndT]
        exact good_bind (ihCmp c hc) (fun e c1 h1 => ihAndL e c1 h1)
      · -- parseAndLoopT
        intro e c hc
        rw [parseAndLoopT]
        refine good_matchBinaryOp Heof _ hc _ (fun op c1 h1 => ?_)
        cases op
        · exact h1
        · exact good_bind (ihCmp _ h1) (fun r c2 h2 => ihAndL _ _ h2)
      · -- parseComparisonT
        intro c hc
        rw [parseComparisonT]
        exact good_bind (ihAdd c hc) (fun e c1 h1 => ihCmpL e c1 h1)
      · -- parseComparisonLoopT
        intro e c hc
        rw [parseComparisonLoopT]
        refine good_matchBinaryOp Heof _ hc _ (fun op c1 h1 => ?_)
        cases op
        · exact h1
        · exact good_bind (ihAdd _ h1) (fun r c2 h2 => ihCmpL _ _ h2)
      · -- parseAdditiveT
        intro c hc
        rw [parseAdditiveT]
        exact good_bind (ihMul c hc) (fun e c1 h1 => ihAddL e c1 h1)
      · -- parseAdditiveLoopT
        intro e c hc
        rw [parseAdditiveLoopT]
        refine good_matchBinaryOp Heof _ hc _ (fun op c1 h1 => ?_)
        cases op
        · exact h1
        · exact good_bind (ihMul _ h1) (fun r c2 h2 => ihAddL _ _ h2)
      · -- parseMultiplicativeT
        intro c hc
        rw [parseMultiplicativeT]
        exact good_bind (ihPrim c hc) (fun e c1 h1 => ihMulL e c1 h1)
      · -- parseMultiplicativeLoopT
        intro e c hc
        rw [parseMultiplicativeLoopT]
        refine good_matchBinaryOp Heof _ hc _ (fun op c1 h1 => ?_)
        cases op
        · exact h1
        · exact good_bind (ihPrim _ h1) (fun r c2 h2 => ihMulL _ _ h2)
      · -- parsePrimaryT
        intro c hc
        rw [parsePrimaryT]
        rw [peekT_lt hc, pbind_ok]
        cases hK : (T.get ⟨c, hc⟩).kind
        case numberLit n =>
          exact good_advance Heof hc (by rw [hK]; simp) _ (fun h1 => ihPost _ _ h1)
        case stringLit s =>
          exact good_advance Heof hc (by rw [hK]; simp) _ (fun h1 => ihPost _ _ h1)
        case boolLit b =>
          exact good_advance Heof hc (by rw [hK]; simp) _ (fun h1 => ihPost _ _ h1)
        case ident name =>
          refine good_advance Heof hc (by rw [hK]; simp) _ (fun h1 => ?_)
          refine good_matchToken Heof _ h1 _ (fun mp c2 h2 => ?_)
          cases mp
          · beta_reduce
            refine good_check _ h2 _ (fun bb hbb => ?_)
            beta_reduce
            cases bb
            · exact ihPost _ _ h2
            · by_cases hs : isStructLiteralAheadT T c2 = true
              · rw [if_pos (by simp [hs])]
                refine good_advance Heof h2 (hbb rfl) _ (fun h3 => ?_)
                refine good_bind (ihFieldInit _ h3) (fun fields c5 h5 => ?_)
                refine good_consume Heof _ _ h5 _ (fun _ c6 h6 => ?_)
                exact ihPost _ _ h6
              · rw [if_neg (by simp [hs])]
                exact ihPost _ _ h2
          · refine good_check _ h2 _ (fun b hb => ?_)
            refine good_bind ?_ (fun args c4 h4 => ?_)
            · cases b
              · exact ihArgs _ h2
              · exact h2
            · refine good_consume Heof _ _ h4 _ (fun _ c5 h5 => ?_)
              exact ihPost _ _ h5
        case leftBracket =>
          refine good_advance Heof hc (by rw [hK]; simp) _ (fun h1 => ?_)
          refine good_check _ h1 _ (fun b hb => ?_)
          refine good_bind ?_ (fun elems c3 h3 => ?_)
          · cases b
            · exact ihArgs _ h1
            · exact h1
          · refine good_consume Heof _ _ h3 _ (fun _ c4 h4 => ?_)
            exact ihPost _ _ h4
        case bang =>
          refine good_advance Heof hc (by rw [hK]; simp) _ (fun h1 => ?_)
          exact good_bind (ihPrim _ h1) (fun e c2 h2 => ihPost _ _ h2)
        case leftParen =>
          refine good_advance Heof hc (by rw [hK]; simp) _ (fun h1 => ?_)
          refine good_bind (ihExpr _ h1) (fun e c2 h2 => ?_)
          refine good_consume Heof _ _ h2 _ (fun _ c3 h3 => ?_)
          exact ihPost _ _ h3
        all_goals exact fun h => PErr.noConfusion h
      · -- parseStructFieldInitsT
        intro c hc
        rw [parseStructFieldInitsT]
        refine good_check _ hc _ (fun b hb => ?_)
        cases b
        · refine good_isAtEnd hc _ (fun e => ?_)
          cases e
          · refine good_expectIdent Heof hc _ (fun fname c3 h3 => ?_)
            refine good_consume Heof _ _ h3 _ (fun _ c4 h4 => ?_)
            refine good_bind (ihExpr _ h4) (fun fval c5 h5 => ?_)
            refine good_matchToken Heof _ h5 _ (fun mb c6 h6 => ?_)
            cases mb
            · exact h6
            · exact good_bind (ihFieldInit _ h6) (fun rest c7 h7 => h7)
          · exact hc
        · exact hc
      · -- parseCallArgsT
        intro c hc
        rw [parseCallArgsT]
        refine good_bind (ihExpr _ hc) (fun e c1 h1 => ?_)
        refine good_matchToken Heof _ h1 _ (fun mb c2 h2 => ?_)
        cases mb
        · exact h2
        · exact good_bind (ihArgs _ h2) (fun rest c3 h3 => h3)
      · -- parsePostfixT
        intro e c hc
        rw [parsePostfixT]
        refine good_check _ hc _ (fun cb hcb => ?_)
        refine good_check _ hc _ (fun cd hcd => ?_)
        beta_reduce
        by_cases hO : (!(cb || cd)) = true
        · rw [if_pos hO]
          exact hc
        · rw [if_neg hO]
          refine good_matchToken Heof _ hc _ (fun mb c3 h3 => ?_)
          cases mb
          · refine good_matchToken Heof _ h3 _ (fun md c4 h4 => ?_)
            cases md
            · exact h4
            · refine good_expectIdent Heof h4 _ (fun member c5 h5 => ?_)
              refine good_matchToken Heof _ h5 _ (fun mp c6 h6 => ?_)
              cases mp
              · exact ihPost _ _ h6
              · refine good_check _ h6 _ (fun b hb => ?_)
                refine good_bind ?_ (fun args c8 h8 => ?_)
                · cases b
                  · exact ihArgs _ h6
                  · exact h6
                · refine good_consume Heof _ _ h8 _ (fun _ c9 h9 => ?_)
                  exact ihPost _ _ h9
          · refine good_bind (ihExpr _ h3) (fun idx c4 h4 => ?_)
            refine good_consume Heof _ _ h4 _ (fun _ c5 h5 => ?_)
            exact ihPost _ _ h5
      · -- parseTypeT
        intro c hc
        rw [parseTypeT]
        rw [peekT_lt hc, pbind_ok]
        refine good_bind ?_ (fun base c1 h1 => ?_)
        · cases hK : (T.get ⟨c, hc⟩).kind
          case numberType => exact good_advance Heof hc (by rw [hK]; simp) _ (fun h1 => h1)
          case stringType => exact good_advance Heof hc (by rw [hK]; simp) _ (fun h1 => h1)
          case booleanType => exact good_advance Heof hc (by rw [hK]; simp) _ (fun h1 => h1)
          case kVoid => exact good_advance Heof hc (by rw [hK]; simp) _ (fun h1 => h1)
          case kAny => exact good_advance Heof hc (by rw [hK]; simp) _ (fun h1 => h1)
          case ident name => exact good_advance Heof hc (by rw [hK]; simp) _ (fun h1 => h1)
          all_goals exact fun h => PErr.noConfusion h
        · refine good_matchToken Heof _ h1 _ (fun mb c2 h2 => ?_)
          cases mb
          · exact h2
          · refine good_check _ h2 _ (fun b hb => ?_)
            cases b
            · refine good_bind (ihType _ h2) (fun elem c4 h4 => ?_)
              refine good_matchToken Heof _ h4 _ (fun mc c5 h5 => ?_)
              refine good_bind ?_ (fun size c6 h6 => ?_)
              · cases mc
                · exact h5
                · refine good_peek h5 _ ?_
                  beta_reduce
                  cases hK2 : (T.get ⟨c5, h5⟩).kind
                  case numberLit n =>
                    exact good_advance Heof h5 (by rw [hK2]; simp) _ (fun h6 => h6)
                  all_goals exact fun h => PErr.noConfusion h
              · refine good_consume Heof _ _ h6 _ (fun _ c7 h7 => ?_)
                exact h7
            · exact good_advance Heof h2 (hb rfl) _ (fun h3 => h3)

theorem parseTopT_good (T : List Token) (Heof : EofLast T) :
    ∀ fuel c, c < T.length → GoodR T (parseTopT T fuel c) := by
  intro fuel
  induction fuel with
  | zero =>
      intro c _
      simp only [parseTopT, fuelErr]
      exact goodR_perr T "out of fuel"
  | succ fuel ih =>
      intro c hc
      rw [parseTopT]
      refine good_isAtEnd hc _ (fun e1 => ?_)
      cases e1
      · refine good_isAtEnd hc _ (fun e2 => ?_)
        cases e2
        · refine good_bind ((parserFunsGood T Heof fuel).1 c hc) (fun s c2 h2 => ?_)
          exact good_bind (ih c2 h2) (fun rest c3 h3 => h3)
        · exact hc
      · exact hc

theorem parseT_good (T : List Token) (Heof : EofLast T) (fuel : Nat) :
    GoodR T (parseT T fuel) := by
  unfold parseT
  exact good_bind (parseTopT_good T Heof fuel 0 Heof.1) (fun stmts c h => h)

set_option maxHeartbeats 1000000 in
/-- C10: for every token sequence whose last element is the end-of-stream
token, `parse` — whether it returns a Program or a ParseError — never moves
its cursor past the index of that end-of-stream token (an accepting run ends
with the cursor at or before that index), and no token access is out of
bounds: the `oob` outcome, which models the panicking unguarded index
expressions in `advance`/`consume`, is unreachable. -/
theorem parser_cursor_in_bounds (T : List Token) (h0 : 0 < T.length)
    (hlast : (T.get ⟨T.length - 1, Nat.sub_lt h0 Nat.one_pos⟩).kind = .eof) (fuel : Nat) :
    (∀ e, parseT T fuel = .error e → e ≠ .oob) ∧
    (∀ p c, parseT T fuel = .ok (p, c) → c ≤ T.length - 1) := by
  have hg : GoodR T (parseT T fuel) := parseT_good T ⟨h0, hlast⟩ fuel
  constructor
  · intro e he
    rw [he] at hg
    exact hg
  · intro p c hpc
    rw [hpc] at hg
    have hlt : c < T.length := hg
    omega

theorem parser_cursor_in_bounds_witness :
    (∀ e, parseT [⟨.ident "x", 1, 1⟩, ⟨.semicolon, 1, 2⟩, ⟨.eof, 1, 3⟩] 9 = .error e →
      e ≠ .oob) ∧
    (∀ p c, parseT [⟨.ident "x", 1, 1⟩, ⟨.semicolon, 1, 2⟩, ⟨.eof, 1, 3⟩] 9 = .ok (p, c) →
      c ≤ ([⟨.ident "x", 1, 1⟩, ⟨.semicolon, 1, 2⟩, ⟨.eof, 1, 3⟩] : List Token).length - 1) :=
  parser_cursor_in_bounds [⟨.ident "x", 1, 1⟩, ⟨.semicolon, 1, 2⟩, ⟨.eof, 1, 3⟩]
    (by decide) rfl 9

